import Mathlib

/-!
# dbspin: a shallow embedding of `bin/index.js`

The launcher is one sequential function, `main`.  Everything it obtains from
outside the file (the parsed configuration document, the directory listing,
the process environment, `dotenv`, `which`, `os.platform`, the prompt library
and the spawned child) is a field of `World`; what the run does is recorded as
a trace of `Event`s, the final `process.env`, the values of the four
`selected*` variables, and the way the process ends.

Objects obtained from JSON are association lists of their own properties in
`Object.keys` order (keys distinct); a key that is not an own property but a
member of `Object.prototype` is found through the prototype chain
(`getProp`).
-/

namespace Dbspin

/-! ## String methods used by the source -/

/-- JavaScript `s.startsWith(p)`. -/
def startsWith (s p : String) : Bool := p.data.isPrefixOf s.data

/-- JavaScript `s.endsWith(p)`. -/
def endsWith (s p : String) : Bool := p.data.isSuffixOf s.data

/-- Replace the first occurrence of `pat` in a character list by `rep`. -/
def replaceChars (pat rep : List Char) : List Char → List Char
  | [] => if pat.isEmpty then rep else []
  | c :: cs =>
    if pat.isPrefixOf (c :: cs) then rep ++ (c :: cs).drop pat.length
    else c :: replaceChars pat rep cs

/-- JavaScript `s.replace(pat, rep)` for a string pattern: only the first
occurrence is replaced. -/
def replace (s pat rep : String) : String := ⟨replaceChars pat.data rep.data s.data⟩

/-- JavaScript `xs.indexOf(x)`: the first index of `x`, or `-1`. -/
def indexOf (xs : List String) (x : String) : Int :=
  if xs.indexOf x < xs.length then (xs.indexOf x : Int) else -1

/-! ## Values, configuration, world -/

/-- The JavaScript values that reach the argument vector of the child. -/
inductive JsValue where
  | undefined
  | number (n : Int)
  | string (s : String)
  /-- A member of `Object.prototype` found under the given key. -/
  | inherited (key : String)
  deriving DecidableEq, Repr

/-- The own property names of `Object.prototype`. -/
def objectPrototypeKeys : List String :=
  ["constructor", "__defineGetter__", "__defineSetter__", "hasOwnProperty",
   "__lookupGetter__", "__lookupSetter__", "isPrototypeOf", "propertyIsEnumerable",
   "toString", "valueOf", "__proto__", "toLocaleString"]

/-- Result of `o[k]` on an object parsed from JSON. -/
inductive Lookup (α : Type) where
  | own (v : α)
  | inherited
  | missing
  deriving DecidableEq, Repr

/-- Property access `o[k]` on an object parsed from JSON. -/
def getProp {α : Type} (o : List (String × α)) (k : String) : Lookup α :=
  match o.lookup k with
  | some v => .own v
  | none => if k ∈ objectPrototypeKeys then .inherited else .missing

/-- The `defaults` object of `dbconfig.json`. -/
structure Defaults where
  environment : String
  tool : String
  portAlias : String
  database : String
  deriving DecidableEq, Repr

/-- The `prompts` object of `dbconfig.json`; `none` is an absent flag. -/
structure Prompts where
  environment : Option Bool
  tool : Option Bool
  port : Option Bool
  database : Option Bool
  deriving DecidableEq, Repr

/-- One entry of the `environments` object. -/
structure EnvironmentConfig where
  portAliases : List (String × JsValue)
  databases : List String
  deriving DecidableEq, Repr

/-- The parsed `dbconfig.json`; `none` is a top-level key the document lacks
(the destructured constant is then `undefined`). -/
structure Config where
  defaults : Option Defaults
  prompts : Option Prompts
  availableTools : Option (List String)
  environments : Option (List (String × EnvironmentConfig))
  deriving DecidableEq, Repr

/-- The table `process.env`: own properties in order. -/
abbrev ProcEnv := List (String × String)

/-- Options handed to `new AutoComplete(...)`. -/
structure PromptSpec where
  name : String
  message : String
  choices : List String
  initial : Int
  deriving DecidableEq, Repr

/-- What `spawn` and the child do. -/
inductive SpawnResult where
  /-- The call `spawn(...)` throws synchronously. -/
  | threw
  /-- The child emits `error` (no listener is registered for it). -/
  | errored
  /-- The child emits `exit` with this code (`none` is `null`: killed by a signal). -/
  | exited (code : Option Int)
  deriving DecidableEq, Repr

/-- Everything the program reads from outside. -/
structure World where
  /-- The parsed `dbconfig.json`. -/
  config : Config
  /-- Result of `fs.readdirSync` on the installation root. -/
  readdir : List String
  /-- The table `process.env` when `main` starts. -/
  env : ProcEnv
  /-- Effect of `dotenv.config` for a file name on `process.env`. -/
  dotenv : String → ProcEnv → ProcEnv
  /-- Result of `which.sync(cmd)`: the resolved path, or `none` when it throws. -/
  which : String → Option String
  /-- Result of `os.platform()`. -/
  platform : String
  /-- Result of `prompt.run()`: the answer, or `none` when the promise rejects. -/
  ask : PromptSpec → Option String
  /-- Behaviour of `spawn(file, args, options)` with `options.env`. -/
  spawn : String → List JsValue → ProcEnv → SpawnResult

/-- What the `catch` block of `main` can receive. -/
inductive Thrown where
  /-- Reading a property of `undefined`; the argument names the expression. -/
  | typeError (expr : String)
  | promptRejected (name : String)
  | spawnThrew
  deriving DecidableEq, Repr

/-- Observable actions of a run, in order. -/
inductive Event where
  /-- Line 88. -/
  | noEnvFiles
  /-- Line 200: the `catch` block reports an error. -/
  | caught (err : Thrown)
  /-- A prompt is constructed and run. -/
  | prompt (p : PromptSpec)
  /-- Line 102: `dotenv.config` for the file of this name in the installation root. -/
  | dotenv (file : String)
  /-- Line 106. -/
  | noConfig (selectedEnv : String)
  /-- Lines 114-115: the warning and the install hint (`none` is `undefined`). -/
  | toolNotFound (tool : String) (tip : Option String)
  /-- Line 121. -/
  | noTools
  /-- Line 160. -/
  | clear
  /-- Line 161: `printBanner(dbName, alias)`. -/
  | banner (dbName portAlias : String)
  /-- Line 170. -/
  | missingVars
  /-- Line 175. -/
  | connecting (tool database host : String) (port : JsValue)
  /-- Line 182: `spawn(file, args, { env, stdio: 'inherit' })`. -/
  | spawn (file : String) (args : List JsValue) (env : ProcEnv)
  /-- Line 192. -/
  | sessionEnded (tool : String)
  /-- Line 194. -/
  | exitedWith (tool : String) (code : Option Int)
  deriving DecidableEq, Repr

/-- Whether the event is a prompt shown to the user. -/
def Event.isPrompt : Event → Bool
  | .prompt _ => true
  | _ => false

/-- Whether the event is a call of `spawn`. -/
def Event.isSpawn : Event → Bool
  | .spawn _ _ _ => true
  | _ => false

/-- Whether the event is the banner. -/
def Event.isBanner : Event → Bool
  | .banner _ _ => true
  | _ => false

/-- Whether the event belongs to lines 102-118: the secret file, the report of a
missing environment configuration, an install hint of the tool probe. -/
def Event.isEarly : Event → Bool
  | .dotenv _ => true
  | .noConfig _ => true
  | .toolNotFound _ _ => true
  | _ => false

/-- Whether the event belongs to lines 160-197 (banner, validation, spawn, exit handler). -/
def Event.isLaunch : Event → Bool
  | .clear => true
  | .banner _ _ => true
  | .missingVars => true
  | .connecting _ _ _ _ => true
  | .spawn _ _ _ => true
  | .sessionEnded _ => true
  | .exitedWith _ _ => true
  | .caught .spawnThrew => true
  | _ => false

/-- How the process ends. -/
inductive Outcome where
  /-- The call `process.exit(code)`; `none` is `process.exit(null)`. -/
  | exit (code : Option Int)
  /-- The child emitted `error`; the source never calls `process.exit`. -/
  | unhandledChildError
  deriving DecidableEq, Repr

/-- The mutable state of a run. -/
structure State where
  events : List Event
  /-- The table `process.env`. -/
  env : ProcEnv
  /-- The `let` variables of `main`; `none` before their declaration is reached. -/
  selectedEnv : Option String
  selectedTool : Option String
  selectedAlias : Option String
  selectedDatabase : Option String
  deriving DecidableEq, Repr

/-- A finished run. -/
structure Run where
  state : State
  outcome : Outcome
  deriving DecidableEq, Repr

/-- Append an event to the trace. -/
def State.emit (s : State) (e : Event) : State := { s with events := s.events ++ [e] }

/-- The `catch` block, lines 199-202. -/
def catchBlock (s : State) (err : Thrown) : Run :=
  ⟨s.emit (.caught err), .exit (some 1)⟩

/-! ## Helper functions of the source -/

/-- Function `commandExists`, lines 35-42. -/
def commandExists (w : World) (cmd : String) : Bool :=
  match w.which cmd with
  | some _ => true
  | none => false

/-- Function `detectPipCommand`, lines 44-48. -/
def detectPipCommand (w : World) : Option String :=
  if commandExists w "pip" then some "pip install pgcli"
  else if commandExists w "pip3" then some "pip3 install pgcli"
  else none

/-- The `osInfo` constant of `getInstallInstructions`, lines 51-56. -/
def osInfo (platform : String) : String :=
  if platform = "darwin" then "macOS"
  else if platform = "win32" then "Windows"
  else if platform = "linux" then "Linux"
  else platform

/-- Function `getInstallInstructions`, lines 50-77; `none` is `undefined`. -/
def getInstallInstructions (w : World) (cmd : String) : Option String :=
  if cmd = "pgcli" then
    match detectPipCommand w with
    | some pipCmd => some pipCmd
    | none =>
      if osInfo w.platform = "macOS" then some "brew install pgcli or pip3 install pgcli"
      else if osInfo w.platform = "Linux" then some "pip3 install pgcli (or install pip first)"
      else if osInfo w.platform = "Windows" then
        some "pip3 install pgcli (install Python from python.org if needed)"
      else none
  else if cmd = "psql" then
    if osInfo w.platform = "macOS" then some "brew install postgresql"
    else if osInfo w.platform = "Linux" then some "sudo apt install postgresql-client"
    else if osInfo w.platform = "Windows" then
      some "Download from https://www.postgresql.org/download/windows/"
    else none
  else some "Please install this tool manually."

/-- The filter of lines 110-118: the tools kept, and the hints printed on the way. -/
def availableToolChoices (w : World) : List String → List String × List Event
  | [] => ([], [])
  | tool :: rest =>
    let found := commandExists w tool
    let r := availableToolChoices w rest
    if found then (tool :: r.1, r.2)
    else (r.1, Event.toolNotFound tool (getInstallInstructions w tool) :: r.2)

/-- The expression `cliArgs`, lines 178-180. -/
def cliArgs (selectedTool : String) (host : String) (selectedPort : JsValue) (user : String)
    (selectedDatabase : String) : List JsValue :=
  if selectedTool = "pgcli" then
    [.string "-h", .string host, .string "-p", selectedPort, .string "-U", .string user,
     .string "-d", .string selectedDatabase]
  else
    [.string "-h", .string host, .string "-p", selectedPort, .string "-U", .string user,
     .string selectedDatabase]

/-- The object literal of lines 183-186: the own properties of `process.env`, then
`PGPASSWORD` set to the password. -/
def childEnv (env : ProcEnv) (password : String) : ProcEnv :=
  if (env.lookup "PGPASSWORD").isSome then
    env.map (fun kv => if kv.1 = "PGPASSWORD" then ("PGPASSWORD", password) else kv)
  else env ++ [("PGPASSWORD", password)]

/-- A destructured `process.env` variable that passes the test of line 169:
`none` when it is `undefined` or the empty string. -/
def truthy (v : Option String) : Option String :=
  match v with
  | some s => if s = "" then none else some s
  | none => none

/-- The `exit` handler of the child, lines 190-197. -/
def onExit (s : State) (selectedTool : String) (code : Option Int) : Run :=
  let s1 := if code = some 0 then s.emit (.sessionEnded selectedTool)
            else s.emit (.exitedWith selectedTool code)
  ⟨s1, .exit code⟩

/-! ## `main`, in source order (each part continues with the next one) -/

/-- Lines 160-197: banner, required variables, argument vector, spawn. -/
def launch (w : World) (s : State) (selectedTool selectedAlias : String) (selectedPort : JsValue)
    (selectedDatabase : String) : Run :=
  let s1 := (s.emit .clear).emit (.banner selectedDatabase selectedAlias)
  match truthy (s1.env.lookup "DB_READ_PROXY_HOST"), truthy (s1.env.lookup "DB_READ_PROXY_USER"),
      truthy (s1.env.lookup "DB_READ_PROXY_PASSWORD") with
  | some host, some user, some password =>
    let s2 := s1.emit (.connecting selectedTool selectedDatabase host selectedPort)
    let args := cliArgs selectedTool host selectedPort user selectedDatabase
    let cenv := childEnv s2.env password
    let s3 := s2.emit (.spawn selectedTool args cenv)
    match w.spawn selectedTool args cenv with
    | .threw => catchBlock s3 .spawnThrew
    | .errored => ⟨s3, .unhandledChildError⟩
    | .exited code => onExit s3 selectedTool code
  | _, _, _ => ⟨s1.emit .missingVars, .exit (some 1)⟩

/-- Lines 149-158: the database. -/
def selectDatabase (w : World) (s : State) (defaults : Defaults) (prompts : Prompts)
    (environmentConfig : EnvironmentConfig) (selectedTool selectedAlias : String)
    (selectedPort : JsValue) : Run :=
  let s1 := { s with selectedDatabase := some defaults.database }
  if prompts.database ≠ some false then
    let dbPrompt : PromptSpec :=
      { name := "database", message := "Select database",
        choices := environmentConfig.databases,
        initial := indexOf environmentConfig.databases defaults.database }
    let s2 := s1.emit (.prompt dbPrompt)
    match w.ask dbPrompt with
    | none => catchBlock s2 (.promptRejected "database")
    | some answer =>
      launch w { s2 with selectedDatabase := some answer } selectedTool selectedAlias
        selectedPort answer
  else launch w s1 selectedTool selectedAlias selectedPort defaults.database

/-- Line 147: `environmentConfig.portAliases[selectedAlias]`. -/
def portOf (environmentConfig : EnvironmentConfig) (selectedAlias : String) : JsValue :=
  match getProp environmentConfig.portAliases selectedAlias with
  | .own v => v
  | .inherited => .inherited selectedAlias
  | .missing => .undefined

/-- Lines 136-147: the port alias.  `environmentConfig` is `none` when
`environments[selectedEnv]` is a member of `Object.prototype`, which has no
`portAliases`. -/
def selectPort (w : World) (s : State) (defaults : Defaults) (prompts : Prompts)
    (environmentConfig : Option EnvironmentConfig) (selectedTool : String) : Run :=
  let s1 := { s with selectedAlias := some defaults.portAlias }
  if prompts.port ≠ some false then
    match environmentConfig with
    | none => catchBlock s1 (.typeError "Object.keys(environmentConfig.portAliases)")
    | some ec =>
      let portPrompt : PromptSpec :=
        { name := "portAlias", message := "Select port alias",
          choices := ec.portAliases.map Prod.fst,
          initial := indexOf (ec.portAliases.map Prod.fst) defaults.portAlias }
      let s2 := s1.emit (.prompt portPrompt)
      match w.ask portPrompt with
      | none => catchBlock s2 (.promptRejected "portAlias")
      | some answer =>
        selectDatabase w { s2 with selectedAlias := some answer } defaults prompts ec
          selectedTool answer (portOf ec answer)
  else
    match environmentConfig with
    | none => catchBlock s1 (.typeError "environmentConfig.portAliases[selectedAlias]")
    | some ec =>
      selectDatabase w s1 defaults prompts ec selectedTool defaults.portAlias
        (portOf ec defaults.portAlias)

/-- Lines 110-134: the tool probe and the tool. -/
def selectTool (w : World) (s : State) (defaults : Defaults)
    (environmentConfig : Option EnvironmentConfig) : Run :=
  match w.config.availableTools with
  | none => catchBlock s (.typeError "availableTools.filter")
  | some availableTools =>
    let probe := availableToolChoices w availableTools
    let s1 := { s with events := s.events ++ probe.2 }
    if probe.1.length = 0 then ⟨s1.emit .noTools, .exit (some 1)⟩
    else
      let s2 := { s1 with selectedTool := some defaults.tool }
      match w.config.prompts with
      | none => catchBlock s2 (.typeError "prompts.tool")
      | some prompts =>
        if prompts.tool ≠ some false then
          let toolPrompt : PromptSpec :=
            { name := "tool", message := "Select DB Tool", choices := probe.1,
              initial := indexOf probe.1 defaults.tool }
          let s3 := s2.emit (.prompt toolPrompt)
          match w.ask toolPrompt with
          | none => catchBlock s3 (.promptRejected "tool")
          | some answer =>
            selectPort w { s3 with selectedTool := some answer } defaults prompts
              environmentConfig answer
        else selectPort w s2 defaults prompts environmentConfig defaults.tool

/-- Lines 102-108: the secret file and the configuration of the environment. -/
def loadEnvironment (w : World) (s : State) (defaults : Defaults) (selectedEnv : String) : Run :=
  let file := ".env." ++ selectedEnv
  let s1 := { s.emit (.dotenv file) with env := w.dotenv file s.env }
  match w.config.environments with
  | none => catchBlock s1 (.typeError "environments[selectedEnv]")
  | some environments =>
    match getProp environments selectedEnv with
    | .missing => ⟨s1.emit (.noConfig selectedEnv), .exit (some 1)⟩
    | .inherited => selectTool w s1 defaults none
    | .own environmentConfig => selectTool w s1 defaults (some environmentConfig)

/-- The `envFiles` constant, lines 81-82. -/
def envFiles (w : World) : List String :=
  w.readdir.filter (fun f => startsWith f ".env." && !endsWith f ".example")

/-- The `envChoices` constant, line 85. -/
def envChoices (w : World) : List String :=
  (envFiles w).map (fun f => replace f ".env." "")

/-- Function `main`, lines 79-203. -/
def main (w : World) : Run :=
  let s0 : State :=
    { events := [], env := w.env, selectedEnv := none, selectedTool := none,
      selectedAlias := none, selectedDatabase := none }
  match w.config.defaults with
  | none => catchBlock s0 (.typeError "defaults.environment")
  | some defaults =>
    let s1 := { s0 with selectedEnv := some defaults.environment }
    if (envChoices w).length = 0 then ⟨s1.emit .noEnvFiles, .exit (some 1)⟩
    else if (envChoices w).length > 1 then
      match w.config.prompts with
      | none => catchBlock s1 (.typeError "prompts.environment")
      | some prompts =>
        if prompts.environment ≠ some false then
          let envPrompt : PromptSpec :=
            { name := "environment", message := "Select environment",
              choices := envChoices w,
              initial := indexOf (envChoices w) defaults.environment }
          let s2 := s1.emit (.prompt envPrompt)
          match w.ask envPrompt with
          | none => catchBlock s2 (.promptRejected "environment")
          | some answer => loadEnvironment w { s2 with selectedEnv := some answer } defaults answer
        else loadEnvironment w s1 defaults defaults.environment
    else loadEnvironment w s1 defaults defaults.environment


/-! ## Example configurations and worlds -/

/-- The one environment entry used by the examples. -/
def devEnvironment : EnvironmentConfig :=
  { portAliases := [("primary", .number 5432), ("replica", .number 5433)],
    databases := ["app", "billing"] }

/-- A complete configuration document; no prompt flag is set. -/
def sampleConfig : Config :=
  { defaults := some { environment := "dev", tool := "psql", portAlias := "primary",
                       database := "app" },
    prompts := some { environment := none, tool := none, port := none, database := none },
    availableTools := some ["pgcli", "psql"],
    environments := some [("dev", devEnvironment)] }

/-- Answers of the user: one fixed answer per prompt. -/
def sampleAnswers (p : PromptSpec) : Option String :=
  if p.name = "environment" then some "dev"
  else if p.name = "tool" then some "pgcli"
  else if p.name = "portAlias" then some "replica"
  else if p.name = "database" then some "billing"
  else none

/-- The secret file adds the three required variables. -/
def sampleDotenv (_file : String) (env : ProcEnv) : ProcEnv :=
  env ++ [("DB_READ_PROXY_HOST", "db.internal"), ("DB_READ_PROXY_USER", "reader"),
          ("DB_READ_PROXY_PASSWORD", "s3cret")]

/-- One secret file, `pgcli` installed and `psql` not, the child exits with code 3. -/
def launchWorld : World :=
  { config := sampleConfig,
    readdir := [".env.dev", ".env.example", "package.json"],
    env := [("PATH", "/usr/bin"), ("PGPASSWORD", "old")],
    dotenv := sampleDotenv,
    which := fun cmd => if cmd = "pgcli" then some "/usr/bin/pgcli" else none,
    platform := "linux",
    ask := sampleAnswers,
    spawn := fun _ _ _ => .exited (some 3) }

/-- The `defaults` of `skipConfig`. -/
def skipDefaults : Defaults :=
  { environment := "dev", tool := "mysql", portAlias := "analytics", database := "reports" }

/-- The `prompts` of `skipConfig`. -/
def skipPrompts : Prompts :=
  { environment := some false, tool := some false, port := some false, database := some false }

/-- Every prompt is disabled and no default is among the corresponding choices. -/
def skipConfig : Config :=
  { defaults := some skipDefaults,
    prompts := some skipPrompts,
    availableTools := some ["pgcli", "psql"],
    environments := some [("dev", devEnvironment)] }

/-- Two secret files, neither of them for the default environment; every prompt disabled. -/
def skipWorld : World :=
  { config := skipConfig,
    readdir := [".env.prod", ".env.staging"],
    env := [],
    dotenv := sampleDotenv,
    which := fun cmd => if cmd = "psql" then some "/usr/bin/psql" else none,
    platform := "darwin",
    ask := sampleAnswers,
    spawn := fun _ _ _ => .exited (some 0) }

/-- As `launchWorld`, but the secret file sets nothing. -/
def missingWorld : World :=
  { launchWorld with dotenv := fun _ env => env }

/-- The only secret file is `.env.prod`, the default environment is `dev` and the
environment prompt is disabled. -/
def singleEnvWorld : World :=
  { launchWorld with
    config := { sampleConfig with
      prompts := some { environment := some false, tool := none, port := none,
                        database := none } },
    readdir := [".env.prod", "package.json"] }

/-- The configuration document lacks `availableTools`; two secret files exist. -/
def noToolsKeyWorld : World :=
  { launchWorld with
    config := { sampleConfig with availableTools := none },
    readdir := [".env.dev", ".env.prod"] }

/-- The installation root holds no secret file. -/
def emptyDirWorld : World :=
  { launchWorld with readdir := [".env.example", "package.json", "bin"] }

/-- The argument vector `launchWorld` hands to `spawn`. -/
def launchArgs : List JsValue :=
  [.string "-h", .string "db.internal", .string "-p", .number 5433, .string "-U",
   .string "reader", .string "-d", .string "billing"]

/-- The environment `launchWorld` hands to the child. -/
def launchChildEnv : ProcEnv :=
  [("PATH", "/usr/bin"), ("PGPASSWORD", "s3cret"), ("DB_READ_PROXY_HOST", "db.internal"),
   ("DB_READ_PROXY_USER", "reader"), ("DB_READ_PROXY_PASSWORD", "s3cret")]


/-! ## Shared lemmas: the hints of the tool probe -/

theorem mem_hints (w : World) (tools : List String) (e : Event)
    (h : e ∈ (availableToolChoices w tools).2) :
    ∃ t, e = .toolNotFound t (getInstallInstructions w t) := by
  induction tools with
  | nil => simp [availableToolChoices] at h
  | cons t ts ih =>
    simp only [availableToolChoices] at h
    split at h
    · exact ih h
    · simp only [List.mem_cons] at h
      rcases h with h | h
      · exact ⟨t, h⟩
      · exact ih h

theorem hints_not_launch (w : World) (tools : List String) (e : Event)
    (h : e ∈ (availableToolChoices w tools).2) : e.isLaunch = false := by
  obtain ⟨t, rfl⟩ := mem_hints w tools e h
  rfl

theorem hints_not_prompt (w : World) (tools : List String) (p : PromptSpec) :
    Event.prompt p ∉ (availableToolChoices w tools).2 := by
  intro h
  obtain ⟨t, ht⟩ := mem_hints w tools _ h
  cases ht

/-! ## Shared lemmas: a run either stops while selecting or reaches `launch` -/

/-- The two ways a part of `main` can end: it stops with exit code 1 before
line 160, or it is `launch` from a state whose trace holds no launch event. -/
theorem selectDatabase_reach (w : World) (s : State) (d : Defaults) (pr : Prompts)
    (ec : EnvironmentConfig) (tool al : String) (port : JsValue)
    (hs : ∀ e ∈ s.events, e.isLaunch = false)
    (ht : s.selectedTool = some tool) (ha : s.selectedAlias = some al) :
    ((selectDatabase w s d pr ec tool al port).outcome = .exit (some 1) ∧
      ∀ e ∈ (selectDatabase w s d pr ec tool al port).state.events, e.isLaunch = false) ∨
    ∃ s1 db, selectDatabase w s d pr ec tool al port = launch w s1 tool al port db ∧
      (∀ e ∈ s1.events, e.isLaunch = false) ∧ s1.env = s.env ∧
      s1.selectedEnv = s.selectedEnv ∧ s1.selectedTool = some tool ∧
      s1.selectedAlias = some al ∧ s1.selectedDatabase = some db := by
  unfold selectDatabase
  simp only []
  split
  · split
    · left
      simp only [catchBlock, State.emit, List.mem_append, List.mem_singleton, true_and]
      rintro e ((he | rfl) | rfl)
      · exact hs e he
      · rfl
      · rfl
    · right
      refine ⟨_, _, rfl, ?_, rfl, rfl, ht, ha, rfl⟩
      simp only [State.emit, List.mem_append, List.mem_singleton]
      rintro e (he | rfl)
      · exact hs e he
      · rfl
  · right
    exact ⟨_, _, rfl, hs, rfl, rfl, ht, ha, rfl⟩

theorem selectPort_reach (w : World) (s : State) (d : Defaults) (pr : Prompts)
    (ec : Option EnvironmentConfig) (tool : String)
    (hs : ∀ e ∈ s.events, e.isLaunch = false) (ht : s.selectedTool = some tool) :
    ((selectPort w s d pr ec tool).outcome = .exit (some 1) ∧
      ∀ e ∈ (selectPort w s d pr ec tool).state.events, e.isLaunch = false) ∨
    ∃ s1 al port db, selectPort w s d pr ec tool = launch w s1 tool al port db ∧
      (∀ e ∈ s1.events, e.isLaunch = false) ∧ s1.env = s.env ∧
      s1.selectedEnv = s.selectedEnv ∧ s1.selectedTool = some tool ∧
      s1.selectedAlias = some al ∧ s1.selectedDatabase = some db ∧
      ∃ ec1, ec = some ec1 ∧ port = portOf ec1 al := by
  have keep : ∀ (s2 : State) (ec1 : EnvironmentConfig) (al : String),
      (∀ e ∈ s2.events, e.isLaunch = false) → s2.env = s.env →
      s2.selectedEnv = s.selectedEnv → s2.selectedTool = some tool →
      s2.selectedAlias = some al →
      ((selectDatabase w s2 d pr ec1 tool al (portOf ec1 al)).outcome = .exit (some 1) ∧
        ∀ e ∈ (selectDatabase w s2 d pr ec1 tool al (portOf ec1 al)).state.events,
          e.isLaunch = false) ∨
      ∃ s1 al1 port db,
        selectDatabase w s2 d pr ec1 tool al (portOf ec1 al) = launch w s1 tool al1 port db ∧
        (∀ e ∈ s1.events, e.isLaunch = false) ∧ s1.env = s.env ∧
        s1.selectedEnv = s.selectedEnv ∧ s1.selectedTool = some tool ∧
        s1.selectedAlias = some al1 ∧ s1.selectedDatabase = some db ∧
        ∃ ec0, some ec1 = some ec0 ∧ port = portOf ec0 al1 := by
    intro s2 ec1 al h2 henv hsel ht2 ha2
    rcases selectDatabase_reach w s2 d pr ec1 tool al (portOf ec1 al) h2 ht2 ha2 with
      h | ⟨s1, db, h1, h3, h4, h5, h6, h7, h8⟩
    · exact Or.inl h
    · exact Or.inr ⟨s1, al, _, db, h1, h3, h4.trans henv, h5.trans hsel, h6, h7, h8,
        ec1, rfl, rfl⟩
  unfold selectPort
  simp only []
  split
  · split
    · left
      simp only [catchBlock, State.emit, List.mem_append, List.mem_singleton, true_and]
      rintro e (he | rfl)
      · exact hs e he
      · rfl
    · split
      · left
        simp only [catchBlock, State.emit, List.mem_append, List.mem_singleton, true_and]
        rintro e ((he | rfl) | rfl)
        · exact hs e he
        · rfl
        · rfl
      · refine keep _ _ _ ?_ rfl rfl ht rfl
        simp only [State.emit, List.mem_append, List.mem_singleton]
        rintro e (he | rfl)
        · exact hs e he
        · rfl
  · split
    · left
      simp only [catchBlock, State.emit, List.mem_append, List.mem_singleton, true_and]
      rintro e (he | rfl)
      · exact hs e he
      · rfl
    · refine keep _ _ _ ?_ rfl rfl ht rfl
      exact hs

theorem selectTool_reach (w : World) (s : State) (d : Defaults)
    (ec : Option EnvironmentConfig) (hs : ∀ e ∈ s.events, e.isLaunch = false) :
    ((selectTool w s d ec).outcome = .exit (some 1) ∧
      ∀ e ∈ (selectTool w s d ec).state.events, e.isLaunch = false) ∨
    ∃ s1 tool al port db, selectTool w s d ec = launch w s1 tool al port db ∧
      (∀ e ∈ s1.events, e.isLaunch = false) ∧ s1.env = s.env ∧
      s1.selectedEnv = s.selectedEnv ∧ s1.selectedTool = some tool ∧
      s1.selectedAlias = some al ∧ s1.selectedDatabase = some db ∧
      (∃ pr tools, w.config.prompts = some pr ∧ w.config.availableTools = some tools ∧
        (availableToolChoices w tools).1.length ≠ 0) ∧
      ∃ ec1, ec = some ec1 ∧ port = portOf ec1 al := by
  have keep : ∀ (s2 : State) (pr : Prompts) (tools : List String) (tool : String),
      (∀ e ∈ s2.events, e.isLaunch = false) → s2.env = s.env →
      s2.selectedEnv = s.selectedEnv → s2.selectedTool = some tool →
      w.config.prompts = some pr → w.config.availableTools = some tools →
      (availableToolChoices w tools).1.length ≠ 0 →
      ((selectPort w s2 d pr ec tool).outcome = .exit (some 1) ∧
        ∀ e ∈ (selectPort w s2 d pr ec tool).state.events, e.isLaunch = false) ∨
      ∃ s1 tool1 al port db,
        selectPort w s2 d pr ec tool = launch w s1 tool1 al port db ∧
        (∀ e ∈ s1.events, e.isLaunch = false) ∧ s1.env = s.env ∧
        s1.selectedEnv = s.selectedEnv ∧ s1.selectedTool = some tool1 ∧
        s1.selectedAlias = some al ∧ s1.selectedDatabase = some db ∧
        (∃ pr tools, w.config.prompts = some pr ∧ w.config.availableTools = some tools ∧
          (availableToolChoices w tools).1.length ≠ 0) ∧
        ∃ ec1, ec = some ec1 ∧ port = portOf ec1 al := by
    intro s2 pr tools tool h2 henv hsel ht2 hpr htools hne
    rcases selectPort_reach w s2 d pr ec tool h2 ht2 with
      h | ⟨s1, al, port, db, h1, h3, h4, h5, h6, h7, h8, h9⟩
    · exact Or.inl h
    · exact Or.inr ⟨s1, tool, al, port, db, h1, h3, h4.trans henv, h5.trans hsel, h6, h7, h8,
        ⟨pr, tools, hpr, htools, hne⟩, h9⟩
  have hprobe : ∀ tools, ∀ e ∈ s.events ++ (availableToolChoices w tools).2,
      e.isLaunch = false := by
    intro tools e he
    rcases List.mem_append.1 he with he | he
    · exact hs e he
    · exact hints_not_launch w tools e he
  unfold selectTool
  split
  · left
    simp only [catchBlock, State.emit, List.mem_append, List.mem_singleton, true_and]
    rintro e (he | rfl)
    · exact hs e he
    · rfl
  · rename_i tools htools
    simp only []
    split
    · left
      simp only [State.emit, List.mem_singleton, true_and]
      intro e he
      rcases List.mem_append.1 he with he | he
      · exact hprobe tools e he
      · rw [List.mem_singleton.1 he]; rfl
    · rename_i hne
      split
      · left
        simp only [catchBlock, State.emit, true_and]
        intro e he
        rcases List.mem_append.1 he with he | he
        · exact hprobe tools e he
        · rw [List.mem_singleton.1 he]; rfl
      · rename_i pr hpr
        split
        · split
          · left
            simp only [catchBlock, State.emit, true_and]
            intro e he
            rcases List.mem_append.1 he with he | he
            · rcases List.mem_append.1 he with he | he
              · exact hprobe tools e he
              · rw [List.mem_singleton.1 he]; rfl
            · rw [List.mem_singleton.1 he]; rfl
          · refine keep _ _ tools _ ?_ rfl rfl rfl hpr htools hne
            simp only [State.emit]
            intro e he
            rcases List.mem_append.1 he with he | he
            · exact hprobe tools e he
            · rw [List.mem_singleton.1 he]; rfl
        · refine keep _ _ tools _ ?_ rfl rfl rfl hpr htools hne
          exact hprobe tools

theorem loadEnvironment_reach (w : World) (s : State) (d : Defaults) (selectedEnv : String)
    (hs : ∀ e ∈ s.events, e.isLaunch = false) :
    ((loadEnvironment w s d selectedEnv).outcome = .exit (some 1) ∧
      ∀ e ∈ (loadEnvironment w s d selectedEnv).state.events, e.isLaunch = false) ∨
    ∃ s1 tool al port db, loadEnvironment w s d selectedEnv = launch w s1 tool al port db ∧
      (∀ e ∈ s1.events, e.isLaunch = false) ∧
      s1.env = w.dotenv (".env." ++ selectedEnv) s.env ∧
      s1.selectedEnv = s.selectedEnv ∧ s1.selectedTool = some tool ∧
      s1.selectedAlias = some al ∧ s1.selectedDatabase = some db ∧
      (∃ pr tools, w.config.prompts = some pr ∧ w.config.availableTools = some tools ∧
        (availableToolChoices w tools).1.length ≠ 0) ∧
      ∃ environments ec1, w.config.environments = some environments ∧
        getProp environments selectedEnv = .own ec1 ∧ port = portOf ec1 al := by
  have h1 : ∀ e ∈ s.events ++ [Event.dotenv (".env." ++ selectedEnv)], e.isLaunch = false := by
    intro e he
    rcases List.mem_append.1 he with he | he
    · exact hs e he
    · rw [List.mem_singleton.1 he]; rfl
  have keep : ∀ (s2 : State) (eco : Option EnvironmentConfig)
      (environments : List (String × EnvironmentConfig)),
      (∀ e ∈ s2.events, e.isLaunch = false) →
      s2.env = w.dotenv (".env." ++ selectedEnv) s.env →
      s2.selectedEnv = s.selectedEnv → w.config.environments = some environments →
      (∀ ec1, eco = some ec1 → getProp environments selectedEnv = .own ec1) →
      ((selectTool w s2 d eco).outcome = .exit (some 1) ∧
        ∀ e ∈ (selectTool w s2 d eco).state.events, e.isLaunch = false) ∨
      ∃ s1 tool al port db, selectTool w s2 d eco = launch w s1 tool al port db ∧
        (∀ e ∈ s1.events, e.isLaunch = false) ∧
        s1.env = w.dotenv (".env." ++ selectedEnv) s.env ∧
        s1.selectedEnv = s.selectedEnv ∧ s1.selectedTool = some tool ∧
        s1.selectedAlias = some al ∧ s1.selectedDatabase = some db ∧
        (∃ pr tools, w.config.prompts = some pr ∧ w.config.availableTools = some tools ∧
          (availableToolChoices w tools).1.length ≠ 0) ∧
        ∃ environments ec1, w.config.environments = some environments ∧
          getProp environments selectedEnv = .own ec1 ∧ port = portOf ec1 al := by
    intro s2 eco environments h2 henv hsel henvs hown
    rcases selectTool_reach w s2 d eco h2 with
      h | ⟨s1, tool, al, port, db, h3, h4, h5, h6, h7, h8, h9, h10, ec1, h11, h12⟩
    · exact Or.inl h
    · exact Or.inr ⟨s1, tool, al, port, db, h3, h4, h5.trans henv, h6.trans hsel, h7, h8, h9,
        h10, environments, ec1, henvs, hown ec1 h11, h12⟩
  unfold loadEnvironment
  simp only []
  split
  · left
    simp only [catchBlock, State.emit, true_and]
    intro e he
    rcases List.mem_append.1 he with he | he
    · exact h1 e he
    · rw [List.mem_singleton.1 he]; rfl
  · split
    · left
      simp only [State.emit, true_and]
      intro e he
      rcases List.mem_append.1 he with he | he
      · exact h1 e he
      · rw [List.mem_singleton.1 he]; rfl
    · refine keep _ none _ ?_ rfl rfl (by assumption) ?_
      · exact h1
      · intro ec1 hec
        cases hec
    · rename_i hown
      refine keep _ (some _) _ ?_ rfl rfl (by assumption) ?_
      · exact h1
      · intro ec1 hec
        cases hec
        exact hown

theorem main_reach (w : World) :
    ((main w).outcome = .exit (some 1) ∧
      ∀ e ∈ (main w).state.events, e.isLaunch = false) ∨
    ∃ s1 selectedEnv tool al port db, main w = launch w s1 tool al port db ∧
      (∀ e ∈ s1.events, e.isLaunch = false) ∧
      s1.env = w.dotenv (".env." ++ selectedEnv) w.env ∧
      s1.selectedEnv = some selectedEnv ∧ s1.selectedTool = some tool ∧
      s1.selectedAlias = some al ∧ s1.selectedDatabase = some db ∧
      (∃ pr tools, w.config.prompts = some pr ∧ w.config.availableTools = some tools ∧
        (availableToolChoices w tools).1.length ≠ 0) ∧
      (∃ environments ec1, w.config.environments = some environments ∧
        getProp environments selectedEnv = .own ec1 ∧ port = portOf ec1 al) ∧
      ∃ defaults, w.config.defaults = some defaults := by
  have keep : ∀ (s : State) (d : Defaults) (selectedEnv : String),
      (∀ e ∈ s.events, e.isLaunch = false) → s.env = w.env →
      s.selectedEnv = some selectedEnv → w.config.defaults = some d →
      ((loadEnvironment w s d selectedEnv).outcome = .exit (some 1) ∧
        ∀ e ∈ (loadEnvironment w s d selectedEnv).state.events, e.isLaunch = false) ∨
      ∃ s1 selectedEnv1 tool al port db,
        loadEnvironment w s d selectedEnv = launch w s1 tool al port db ∧
        (∀ e ∈ s1.events, e.isLaunch = false) ∧
        s1.env = w.dotenv (".env." ++ selectedEnv1) w.env ∧
        s1.selectedEnv = some selectedEnv1 ∧ s1.selectedTool = some tool ∧
        s1.selectedAlias = some al ∧ s1.selectedDatabase = some db ∧
        (∃ pr tools, w.config.prompts = some pr ∧ w.config.availableTools = some tools ∧
          (availableToolChoices w tools).1.length ≠ 0) ∧
        (∃ environments ec1, w.config.environments = some environments ∧
          getProp environments selectedEnv1 = .own ec1 ∧ port = portOf ec1 al) ∧
        ∃ defaults, w.config.defaults = some defaults := by
    intro s d selectedEnv h2 henv hsel hd
    rcases loadEnvironment_reach w s d selectedEnv h2 with
      h | ⟨s1, tool, al, port, db, h1, h3, h4, h5, h6, h7, h8, h9, h10⟩
    · exact Or.inl h
    · exact Or.inr ⟨s1, selectedEnv, tool, al, port, db, h1, h3, henv ▸ h4, h5.trans hsel,
        h6, h7, h8, h9, h10, d, hd⟩
  unfold main
  simp only []
  split
  · left
    simp [catchBlock, State.emit, Event.isLaunch]
  · rename_i d hd
    split
    · left
      simp [State.emit, Event.isLaunch]
    · split
      · split
        · left
          simp [catchBlock, State.emit, Event.isLaunch]
        · split
          · split
            · left
              simp [catchBlock, State.emit, Event.isLaunch]
            · refine keep _ _ _ ?_ rfl rfl hd
              simp [State.emit, Event.isLaunch]
          · refine keep _ _ _ ?_ rfl rfl hd
            simp
      · refine keep _ _ _ ?_ rfl rfl hd
        simp

/-! ## Shared lemmas: what `launch` does -/

theorem launch_missing (w : World) (s : State) (tool al : String) (port : JsValue) (db : String)
    (h : truthy (s.env.lookup "DB_READ_PROXY_HOST") = none ∨
         truthy (s.env.lookup "DB_READ_PROXY_USER") = none ∨
         truthy (s.env.lookup "DB_READ_PROXY_PASSWORD") = none) :
    launch w s tool al port db =
      ⟨{ s with events := s.events ++ [.clear, .banner db al, .missingVars] },
        .exit (some 1)⟩ := by
  unfold launch
  simp only [State.emit]
  split
  · rename_i h1 h2 h3
    rcases h with h | h | h
    · rw [h] at h1; cases h1
    · rw [h] at h2; cases h2
    · rw [h] at h3; cases h3
  · simp

theorem launch_present (w : World) (s : State) (tool al : String) (port : JsValue) (db : String)
    (host user password : String)
    (hh : truthy (s.env.lookup "DB_READ_PROXY_HOST") = some host)
    (hu : truthy (s.env.lookup "DB_READ_PROXY_USER") = some user)
    (hp : truthy (s.env.lookup "DB_READ_PROXY_PASSWORD") = some password) :
    launch w s tool al port db =
      match w.spawn tool (cliArgs tool host port user db) (childEnv s.env password) with
      | .threw =>
        ⟨{ s with events := s.events ++ [.clear, .banner db al,
            .connecting tool db host port,
            .spawn tool (cliArgs tool host port user db) (childEnv s.env password),
            .caught .spawnThrew] }, .exit (some 1)⟩
      | .errored =>
        ⟨{ s with events := s.events ++ [.clear, .banner db al,
            .connecting tool db host port,
            .spawn tool (cliArgs tool host port user db) (childEnv s.env password)] },
          .unhandledChildError⟩
      | .exited code =>
        ⟨{ s with events := s.events ++ [.clear, .banner db al,
            .connecting tool db host port,
            .spawn tool (cliArgs tool host port user db) (childEnv s.env password),
            if code = some 0 then .sessionEnded tool else .exitedWith tool code] },
          .exit code⟩ := by
  unfold launch
  simp only [State.emit, hh, hu, hp, catchBlock, onExit]
  cases w.spawn tool (cliArgs tool host port user db) (childEnv s.env password) with
  | threw => simp
  | errored => simp
  | exited code => by_cases hc : code = some 0 <;> simp [hc]

theorem launch_env (w : World) (s : State) (tool al : String) (port : JsValue) (db : String) :
    (launch w s tool al port db).state.env = s.env := by
  unfold launch
  simp only [State.emit, catchBlock, onExit]
  split
  · split
    · rfl
    · rfl
    · split <;> rfl
  · rfl

theorem truthy_cases (v : Option String) : truthy v = none ∨ ∃ x, truthy v = some x := by
  cases h : truthy v with
  | none => exact Or.inl rfl
  | some x => exact Or.inr ⟨x, rfl⟩

/-- A `spawn` event of a run comes from `launch` with all three variables set. -/
theorem spawn_mem (w : World) (file : String) (args : List JsValue) (cenv : ProcEnv)
    (h : Event.spawn file args cenv ∈ (main w).state.events) :
    ∃ s1 selectedEnv al port db host user password,
      main w = launch w s1 file al port db ∧
      (∀ e ∈ s1.events, e.isLaunch = false) ∧
      s1.env = w.dotenv (".env." ++ selectedEnv) w.env ∧
      s1.selectedEnv = some selectedEnv ∧ s1.selectedTool = some file ∧
      s1.selectedAlias = some al ∧ s1.selectedDatabase = some db ∧
      truthy (s1.env.lookup "DB_READ_PROXY_HOST") = some host ∧
      truthy (s1.env.lookup "DB_READ_PROXY_USER") = some user ∧
      truthy (s1.env.lookup "DB_READ_PROXY_PASSWORD") = some password ∧
      args = cliArgs file host port user db ∧ cenv = childEnv s1.env password ∧
      ∃ environments ec1, w.config.environments = some environments ∧
        getProp environments selectedEnv = .own ec1 ∧ port = portOf ec1 al := by
  rcases main_reach w with
    ⟨_, hl⟩ | ⟨s1, selectedEnv, tool, al, port, db, hm, hpre, h1, h2, h3, h4, h5, _, hport, _⟩
  · have := hl _ h
    simp [Event.isLaunch] at this
  · have hnot : Event.spawn file args cenv ∉ s1.events := by
      intro hmem
      have := hpre _ hmem
      simp [Event.isLaunch] at this
    rcases truthy_cases (s1.env.lookup "DB_READ_PROXY_HOST") with hh | ⟨host, hh⟩
    · rw [hm, launch_missing w s1 tool al port db (Or.inl hh)] at h
      simp [hnot] at h
    rcases truthy_cases (s1.env.lookup "DB_READ_PROXY_USER") with hu | ⟨user, hu⟩
    · rw [hm, launch_missing w s1 tool al port db (Or.inr (Or.inl hu))] at h
      simp [hnot] at h
    rcases truthy_cases (s1.env.lookup "DB_READ_PROXY_PASSWORD") with hp | ⟨password, hp⟩
    · rw [hm, launch_missing w s1 tool al port db (Or.inr (Or.inr hp))] at h
      simp [hnot] at h
    have hargs : file = tool ∧ args = cliArgs tool host port user db ∧
        cenv = childEnv s1.env password := by
      rw [hm, launch_present w s1 tool al port db host user password hh hu hp] at h
      split at h
      · simpa [hnot] using h
      · simpa [hnot] using h
      · have h6 : Event.spawn file args cenv ≠
            (if (‹Option Int›) = some 0 then Event.sessionEnded tool
              else Event.exitedWith tool ‹Option Int›) := by
          split <;> simp
        simpa [hnot, h6] using h
    obtain ⟨rfl, rfl, rfl⟩ := hargs
    exact ⟨s1, selectedEnv, al, port, db, host, user, password, hm, hpre, h1, h2, h3, h4, h5,
      hh, hu, hp, rfl, rfl, hport⟩

theorem truthy_some (v : Option String) (x : String) (h : truthy v = some x) :
    v = some x ∧ x ≠ "" := by
  unfold truthy at h
  split at h
  · split at h
    · cases h
    · rename_i hne
      cases h
      exact ⟨rfl, hne⟩
  · cases h

/-- The selection variables and `process.env` are not touched by `launch`. -/
theorem launch_frame (w : World) (s : State) (tool al : String) (port : JsValue) (db : String) :
    ∃ suffix, (launch w s tool al port db).state = { s with events := s.events ++ suffix } ∧
      ∀ e ∈ suffix, e.isLaunch = true := by
  rcases truthy_cases (s.env.lookup "DB_READ_PROXY_HOST") with hh | ⟨host, hh⟩
  · rw [launch_missing w s tool al port db (Or.inl hh)]
    exact ⟨_, rfl, by simp [Event.isLaunch]⟩
  rcases truthy_cases (s.env.lookup "DB_READ_PROXY_USER") with hu | ⟨user, hu⟩
  · rw [launch_missing w s tool al port db (Or.inr (Or.inl hu))]
    exact ⟨_, rfl, by simp [Event.isLaunch]⟩
  rcases truthy_cases (s.env.lookup "DB_READ_PROXY_PASSWORD") with hp | ⟨password, hp⟩
  · rw [launch_missing w s tool al port db (Or.inr (Or.inr hp))]
    exact ⟨_, rfl, by simp [Event.isLaunch]⟩
  rw [launch_present w s tool al port db host user password hh hu hp]
  split
  · exact ⟨_, rfl, by simp [Event.isLaunch]⟩
  · exact ⟨_, rfl, by simp [Event.isLaunch]⟩
  · refine ⟨_, rfl, ?_⟩
    intro e he
    simp only [List.mem_cons, List.mem_singleton, List.not_mem_nil, or_false] at he
    rcases he with rfl | rfl | rfl | rfl | rfl
    · rfl
    · rfl
    · rfl
    · rfl
    · split <;> rfl

theorem lookup_cons_self (env : ProcEnv) (k v : String) :
    List.lookup k ((k, v) :: env) = some v := by
  simp [List.lookup]

theorem lookup_cons_ne (env : ProcEnv) (k v x : String) (h : x ≠ k) :
    List.lookup x ((k, v) :: env) = List.lookup x env := by
  have hb : (x == k) = false := by simpa using h
  simp [List.lookup, hb]

theorem lookup_append_single (env : ProcEnv) (k v x : String) :
    (env ++ [(k, v)]).lookup x =
      match env.lookup x with
      | some y => some y
      | none => if x = k then some v else none := by
  induction env with
  | nil =>
    by_cases hx : x = k
    · subst hx
      rw [List.nil_append, lookup_cons_self]
      simp [List.lookup]
    · rw [List.nil_append, lookup_cons_ne _ _ _ _ hx]
      simp [List.lookup, hx]
  | cons kv rest ih =>
    obtain ⟨k1, v1⟩ := kv
    by_cases hx : x = k1
    · subst hx
      rw [List.cons_append, lookup_cons_self, lookup_cons_self]
    · rw [List.cons_append, lookup_cons_ne _ _ _ _ hx, lookup_cons_ne _ _ _ _ hx]
      exact ih

theorem lookup_map_set (env : ProcEnv) (k v x : String) :
    (env.map (fun kv => if kv.1 = k then (k, v) else kv)).lookup x =
      if x = k then (env.lookup x).map (fun _ => v) else env.lookup x := by
  induction env with
  | nil => simp [List.lookup]
  | cons kv rest ih =>
    obtain ⟨k1, v1⟩ := kv
    rw [List.map_cons]
    by_cases h1 : k1 = k
    · subst h1
      simp only [if_true]
      by_cases hx : x = k1
      · subst hx
        rw [lookup_cons_self, lookup_cons_self]
        simp
      · rw [lookup_cons_ne _ _ _ _ hx, lookup_cons_ne _ _ _ _ hx]
        exact ih
    · simp only [h1, if_false]
      by_cases hx : x = k1
      · subst hx
        rw [lookup_cons_self, lookup_cons_self]
        simp [h1]
      · rw [lookup_cons_ne _ _ _ _ hx, lookup_cons_ne _ _ _ _ hx]
        exact ih

/-- Reading a variable from the environment handed to the child. -/
theorem lookup_childEnv (env : ProcEnv) (password x : String) :
    (childEnv env password).lookup x =
      if x = "PGPASSWORD" then some password else env.lookup x := by
  unfold childEnv
  split
  · rename_i hs
    rw [lookup_map_set]
    by_cases hx : x = "PGPASSWORD"
    · subst hx
      obtain ⟨y, hy⟩ := Option.isSome_iff_exists.1 hs
      simp [hy]
    · simp [hx]
  · rename_i hs
    rw [lookup_append_single]
    by_cases hx : x = "PGPASSWORD"
    · subst hx
      have : List.lookup "PGPASSWORD" env = none := by
        cases h : List.lookup "PGPASSWORD" env with
        | none => rfl
        | some y => rw [h] at hs; simp at hs
      simp [this]
    · cases h : List.lookup x env <;> simp [hx]

/-! ## Claims about the launch (lines 160-197) -/

/-- C1: when the selected tool is `pgcli` the argument vector is
`['-h', host, '-p', port, '-U', user, '-d', database]`; for every other tool it is
`['-h', host, '-p', port, '-U', user, database]`; and every vector `main` hands
to `spawn` is built this way from the selected tool, the selected database and
the host and user variables of `process.env`. -/
theorem C1_argument_vector (tool host user database : String) (port : JsValue) :
    (tool = "pgcli" → cliArgs tool host port user database =
      [.string "-h", .string host, .string "-p", port, .string "-U", .string user,
       .string "-d", .string database]) ∧
    (tool ≠ "pgcli" → cliArgs tool host port user database =
      [.string "-h", .string host, .string "-p", port, .string "-U", .string user,
       .string database]) ∧
    ∀ (w : World) (args : List JsValue) (cenv : ProcEnv),
      Event.spawn tool args cenv ∈ (main w).state.events →
      ∃ h p u d, args = cliArgs tool h p u d ∧
        (main w).state.selectedTool = some tool ∧
        (main w).state.selectedDatabase = some d ∧
        (main w).state.env.lookup "DB_READ_PROXY_HOST" = some h ∧
        (main w).state.env.lookup "DB_READ_PROXY_USER" = some u := by
  refine ⟨?_, ?_, ?_⟩
  · intro h
    simp [cliArgs, h]
  · intro h
    simp [cliArgs, h]
  · intro w args cenv hs
    obtain ⟨s1, selectedEnv, al, p, d, h, u, password, hm, _, _, _, h3, _, h5, hh, hu, _,
      hargs, _, _⟩ := spawn_mem w tool args cenv hs
    obtain ⟨suffix, hst, _⟩ := launch_frame w s1 tool al p d
    refine ⟨h, p, u, d, hargs, ?_, ?_, ?_, ?_⟩
    · rw [hm, hst]; exact h3
    · rw [hm, hst]; exact h5
    · rw [hm, hst]; exact (truthy_some _ _ hh).1
    · rw [hm, hst]; exact (truthy_some _ _ hu).1

/-- C2: when the spawned child reports the integer exit code `n`, the program
exits with code `n`; for `n = 0` the success message is printed and no failure
message, for every other `n` the failure message (with `n`) is printed and no
success message. -/
theorem C2_child_exit_code (w : World) (file : String) (args : List JsValue) (cenv : ProcEnv)
    (n : Int) (hs : Event.spawn file args cenv ∈ (main w).state.events)
    (hc : w.spawn file args cenv = .exited (some n)) :
    (main w).outcome = .exit (some n) ∧
    (n = 0 → Event.sessionEnded file ∈ (main w).state.events ∧
      ∀ t c, Event.exitedWith t c ∉ (main w).state.events) ∧
    (n ≠ 0 → Event.exitedWith file (some n) ∈ (main w).state.events ∧
      ∀ t, Event.sessionEnded t ∉ (main w).state.events) := by
  obtain ⟨s1, selectedEnv, al, p, d, h, u, password, hm, hpre, _, _, _, _, _, hh, hu, hp,
    hargs, hcenv, _⟩ := spawn_mem w file args cenv hs
  subst hargs hcenv
  have hno1 : ∀ t c, Event.exitedWith t c ∉ s1.events := by
    intro t c hmem
    have := hpre _ hmem
    simp [Event.isLaunch] at this
  have hno2 : ∀ t, Event.sessionEnded t ∉ s1.events := by
    intro t hmem
    have := hpre _ hmem
    simp [Event.isLaunch] at this
  rw [hm, launch_present w s1 file al p d h u password hh hu hp, hc]
  refine ⟨rfl, ?_, ?_⟩
  · intro hn
    subst hn
    simp [hno1]
  · intro hn
    simp [hn, hno2]

/-- Witness for C2: in `launchWorld` the child exits with code 3. -/
theorem C2_child_exit_code_witness :
    Event.spawn "pgcli" launchArgs launchChildEnv ∈ (main launchWorld).state.events ∧
    launchWorld.spawn "pgcli" launchArgs launchChildEnv = .exited (some 3) ∧
    ((main launchWorld).outcome = .exit (some 3) ∧
      ((3 : Int) = 0 → Event.sessionEnded "pgcli" ∈ (main launchWorld).state.events ∧
        ∀ t c, Event.exitedWith t c ∉ (main launchWorld).state.events) ∧
      ((3 : Int) ≠ 0 → Event.exitedWith "pgcli" (some 3) ∈ (main launchWorld).state.events ∧
        ∀ t, Event.sessionEnded t ∉ (main launchWorld).state.events)) :=
  ⟨by decide, rfl,
    C2_child_exit_code launchWorld "pgcli" launchArgs launchChildEnv 3 (by decide) rfl⟩

/-- C5: when one of the three required variables is absent or empty in
`process.env` after the secret file is loaded, the run exits with code 1 and
never calls `spawn`; if it reached the validation step (the banner was
printed) its last action is the report of the missing variables. -/
theorem C5_missing_variables (w : World)
    (h : truthy ((main w).state.env.lookup "DB_READ_PROXY_HOST") = none ∨
         truthy ((main w).state.env.lookup "DB_READ_PROXY_USER") = none ∨
         truthy ((main w).state.env.lookup "DB_READ_PROXY_PASSWORD") = none) :
    (main w).outcome = .exit (some 1) ∧
    (main w).state.events.any Event.isSpawn = false ∧
    ((main w).state.events.any Event.isBanner = true →
      (main w).state.events.getLast? = some .missingVars) := by
  rcases main_reach w with ⟨ho, hl⟩ | ⟨s1, selectedEnv, tool, al, port, db, hm, hpre, _⟩
  · refine ⟨ho, ?_, ?_⟩
    · rw [List.any_eq_false]
      intro e he
      have := hl e he
      cases e <;> simp_all [Event.isLaunch, Event.isSpawn]
    · intro hb
      obtain ⟨e, he, hbe⟩ := List.any_eq_true.1 hb
      have := hl e he
      cases e <;> simp_all [Event.isLaunch, Event.isBanner]
  · rw [hm, launch_env] at h
    rw [hm, launch_missing w s1 tool al port db h]
    refine ⟨rfl, ?_, ?_⟩
    · rw [List.any_eq_false]
      intro e he
      simp only [List.mem_append, List.mem_cons, List.mem_singleton, List.not_mem_nil,
        or_false] at he
      rcases he with he | rfl | rfl | rfl
      · have := hpre e he
        cases e <;> simp_all [Event.isLaunch, Event.isSpawn]
      · simp [Event.isSpawn]
      · simp [Event.isSpawn]
      · simp [Event.isSpawn]
    · intro _
      simp

/-- Witness for C5: in `missingWorld` the secret file sets none of the variables. -/
theorem C5_missing_variables_witness :
    truthy ((main missingWorld).state.env.lookup "DB_READ_PROXY_HOST") = none ∧
    ((main missingWorld).outcome = .exit (some 1) ∧
      (main missingWorld).state.events.any Event.isSpawn = false ∧
      ((main missingWorld).state.events.any Event.isBanner = true →
        (main missingWorld).state.events.getLast? = some .missingVars)) :=
  ⟨by decide, C5_missing_variables missingWorld (Or.inl (by decide))⟩

/-- C9: the environment handed to the spawned child binds `PGPASSWORD` to the
value of `DB_READ_PROXY_PASSWORD` and binds every other name exactly as
`process.env` does (set to the same value, or unset); `process.env` is then the
table the program started with after `dotenv.config` for the selected
environment. -/
theorem C9_child_environment (w : World) (file : String) (args : List JsValue) (cenv : ProcEnv)
    (hs : Event.spawn file args cenv ∈ (main w).state.events) :
    cenv.lookup "PGPASSWORD" = (main w).state.env.lookup "DB_READ_PROXY_PASSWORD" ∧
    (∀ k, k ≠ "PGPASSWORD" → cenv.lookup k = (main w).state.env.lookup k) ∧
    ∃ selectedEnv, (main w).state.selectedEnv = some selectedEnv ∧
      (main w).state.env = w.dotenv (".env." ++ selectedEnv) w.env := by
  obtain ⟨s1, selectedEnv, al, p, d, h, u, password, hm, _, h1, h2, _, _, _, _, _, hp,
    _, hcenv, _⟩ := spawn_mem w file args cenv hs
  obtain ⟨suffix, hst, _⟩ := launch_frame w s1 file al p d
  subst hcenv
  refine ⟨?_, ?_, selectedEnv, ?_, ?_⟩
  · rw [hm, hst, lookup_childEnv]
    simp [(truthy_some _ _ hp).1]
  · intro k hk
    rw [hm, hst, lookup_childEnv]
    simp [hk]
  · rw [hm, hst]; exact h2
  · rw [hm, hst]; exact h1

/-- Witness for C9: the child environment of `launchWorld`, where the parent
already has a `PGPASSWORD`. -/
theorem C9_child_environment_witness :
    Event.spawn "pgcli" launchArgs launchChildEnv ∈ (main launchWorld).state.events ∧
    (launchChildEnv.lookup "PGPASSWORD" =
        (main launchWorld).state.env.lookup "DB_READ_PROXY_PASSWORD" ∧
      (∀ k, k ≠ "PGPASSWORD" →
        launchChildEnv.lookup k = (main launchWorld).state.env.lookup k) ∧
      ∃ selectedEnv, (main launchWorld).state.selectedEnv = some selectedEnv ∧
        (main launchWorld).state.env =
          launchWorld.dotenv (".env." ++ selectedEnv) launchWorld.env) :=
  ⟨by decide, C9_child_environment launchWorld "pgcli" launchArgs launchChildEnv (by decide)⟩

/-- C10 as stated fails: in `missingWorld` the banner is printed
although `DB_READ_PROXY_HOST` is absent, and the run then exits with code 1 for
the missing variables. -/
theorem C10_counterexample :
    Event.banner "billing" "replica" ∈ (main missingWorld).state.events ∧
    (main missingWorld).state.env.lookup "DB_READ_PROXY_HOST" = none ∧
    Event.missingVars ∈ (main missingWorld).state.events ∧
    (main missingWorld).outcome = .exit (some 1) := by
  decide

/-- C10, amended: the required variables are validated after the banner and
before the spawn.  A run that reports missing variables has printed the banner
just before and exits with code 1; a run that calls `spawn` has all three
variables present and non-empty. -/
theorem C10_validation_order (w : World) :
    (Event.missingVars ∈ (main w).state.events →
      (∃ pre db al, (main w).state.events = pre ++ [.clear, .banner db al, .missingVars]) ∧
      (main w).outcome = .exit (some 1)) ∧
    (∀ file args cenv, Event.spawn file args cenv ∈ (main w).state.events →
      ∃ host user password,
        (main w).state.env.lookup "DB_READ_PROXY_HOST" = some host ∧ host ≠ "" ∧
        (main w).state.env.lookup "DB_READ_PROXY_USER" = some user ∧ user ≠ "" ∧
        (main w).state.env.lookup "DB_READ_PROXY_PASSWORD" = some password ∧
        password ≠ "") := by
  constructor
  · intro hmv
    rcases main_reach w with ⟨_, hl⟩ | ⟨s1, selectedEnv, tool, al, port, db, hm, hpre, _⟩
    · have := hl _ hmv
      simp [Event.isLaunch] at this
    · have hnot : Event.missingVars ∉ s1.events := by
        intro hmem
        have := hpre _ hmem
        simp [Event.isLaunch] at this
      have hmiss : truthy (s1.env.lookup "DB_READ_PROXY_HOST") = none ∨
          truthy (s1.env.lookup "DB_READ_PROXY_USER") = none ∨
          truthy (s1.env.lookup "DB_READ_PROXY_PASSWORD") = none := by
        rcases truthy_cases (s1.env.lookup "DB_READ_PROXY_HOST") with hh | ⟨host, hh⟩
        · exact Or.inl hh
        rcases truthy_cases (s1.env.lookup "DB_READ_PROXY_USER") with hu | ⟨user, hu⟩
        · exact Or.inr (Or.inl hu)
        rcases truthy_cases (s1.env.lookup "DB_READ_PROXY_PASSWORD") with hp | ⟨password, hp⟩
        · exact Or.inr (Or.inr hp)
        exfalso
        rw [hm, launch_present w s1 tool al port db host user password hh hu hp] at hmv
        split at hmv
        · simp [hnot] at hmv
        · simp [hnot] at hmv
        · rename_i code _
          by_cases hc : code = some 0 <;> simp [hnot, hc] at hmv
      rw [hm, launch_missing w s1 tool al port db hmiss]
      exact ⟨⟨s1.events, db, al, rfl⟩, rfl⟩
  · intro file args cenv hs
    obtain ⟨s1, selectedEnv, al, p, d, h, u, password, hm, _, _, _, _, _, _, hh, hu, hp,
      _, _, _⟩ := spawn_mem w file args cenv hs
    obtain ⟨suffix, hst, _⟩ := launch_frame w s1 file al p d
    refine ⟨h, u, password, ?_, (truthy_some _ _ hh).2, ?_, (truthy_some _ _ hu).2, ?_,
      (truthy_some _ _ hp).2⟩
    · rw [hm, hst]; exact (truthy_some _ _ hh).1
    · rw [hm, hst]; exact (truthy_some _ _ hu).1
    · rw [hm, hst]; exact (truthy_some _ _ hp).1

/-! ## Shared lemmas: where the prompts of a run come from -/

theorem prompt_launch (w : World) (s : State) (tool al : String) (port : JsValue) (db : String)
    (p : PromptSpec) (h : Event.prompt p ∈ (launch w s tool al port db).state.events) :
    Event.prompt p ∈ s.events := by
  obtain ⟨suffix, hst, hsuf⟩ := launch_frame w s tool al port db
  rw [hst] at h
  rcases List.mem_append.1 h with h | h
  · exact h
  · have := hsuf _ h
    simp [Event.isLaunch] at this

theorem prompt_selectDatabase (w : World) (s : State) (d : Defaults) (pr : Prompts)
    (ec : EnvironmentConfig) (tool al : String) (port : JsValue) (p : PromptSpec)
    (h : Event.prompt p ∈ (selectDatabase w s d pr ec tool al port).state.events) :
    Event.prompt p ∈ s.events ∨ (p.name = "database" ∧ pr.database ≠ some false) := by
  unfold selectDatabase at h
  simp only [] at h
  split at h
  · rename_i hflag
    split at h
    · simp only [catchBlock, State.emit, List.mem_append, List.mem_singleton] at h
      rcases h with (h | h) | h
      · exact Or.inl h
      · cases h
        exact Or.inr ⟨rfl, hflag⟩
      · cases h
    · have h1 := prompt_launch _ _ _ _ _ _ _ h
      simp only [State.emit, List.mem_append, List.mem_singleton] at h1
      rcases h1 with h1 | h1
      · exact Or.inl h1
      · cases h1
        exact Or.inr ⟨rfl, hflag⟩
  · have h1 := prompt_launch _ _ _ _ _ _ _ h
    exact Or.inl h1

theorem prompt_selectPort (w : World) (s : State) (d : Defaults) (pr : Prompts)
    (ec : Option EnvironmentConfig) (tool : String) (p : PromptSpec)
    (h : Event.prompt p ∈ (selectPort w s d pr ec tool).state.events) :
    Event.prompt p ∈ s.events ∨ (p.name = "portAlias" ∧ pr.port ≠ some false) ∨
      (p.name = "database" ∧ pr.database ≠ some false) := by
  unfold selectPort at h
  simp only [] at h
  split at h
  · rename_i hflag
    split at h
    · simp only [catchBlock, State.emit, List.mem_append, List.mem_singleton] at h
      rcases h with h | h
      · exact Or.inl h
      · cases h
    · split at h
      · simp only [catchBlock, State.emit, List.mem_append, List.mem_singleton] at h
        rcases h with (h | h) | h
        · exact Or.inl h
        · cases h
          exact Or.inr (Or.inl ⟨rfl, hflag⟩)
        · cases h
      · rcases prompt_selectDatabase _ _ _ _ _ _ _ _ _ h with h1 | h1
        · simp only [State.emit, List.mem_append, List.mem_singleton] at h1
          rcases h1 with h1 | h1
          · exact Or.inl h1
          · cases h1
            exact Or.inr (Or.inl ⟨rfl, hflag⟩)
        · exact Or.inr (Or.inr h1)
  · split at h
    · simp only [catchBlock, State.emit, List.mem_append, List.mem_singleton] at h
      rcases h with h | h
      · exact Or.inl h
      · cases h
    · rcases prompt_selectDatabase _ _ _ _ _ _ _ _ _ h with h1 | h1
      · exact Or.inl h1
      · exact Or.inr (Or.inr h1)

theorem prompt_selectTool (w : World) (s : State) (d : Defaults)
    (ec : Option EnvironmentConfig) (p : PromptSpec)
    (h : Event.prompt p ∈ (selectTool w s d ec).state.events) :
    Event.prompt p ∈ s.events ∨
    ∃ pr tools, w.config.prompts = some pr ∧ w.config.availableTools = some tools ∧
      (availableToolChoices w tools).1.length ≠ 0 ∧
      ((p.name = "tool" ∧ pr.tool ≠ some false ∧ p.choices = (availableToolChoices w tools).1) ∨
       (p.name = "portAlias" ∧ pr.port ≠ some false) ∨
       (p.name = "database" ∧ pr.database ≠ some false)) := by
  unfold selectTool at h
  split at h
  · simp only [catchBlock, State.emit, List.mem_append, List.mem_singleton] at h
    rcases h with h | h
    · exact Or.inl h
    · cases h
  · rename_i tools htools
    simp only [] at h
    have hprobe : Event.prompt p ∈ s.events ++ (availableToolChoices w tools).2 →
        Event.prompt p ∈ s.events := by
      intro hm
      rcases List.mem_append.1 hm with hm | hm
      · exact hm
      · exact absurd hm (hints_not_prompt w tools p)
    split at h
    · simp only [State.emit, List.mem_append, List.mem_singleton] at h
      rcases h with h | h
      · exact Or.inl (hprobe (List.mem_append.2 h))
      · cases h
    · rename_i hne
      split at h
      · simp only [catchBlock, State.emit, List.mem_append, List.mem_singleton] at h
        rcases h with h | h
        · exact Or.inl (hprobe (List.mem_append.2 h))
        · cases h
      · rename_i pr hpr
        split at h
        · rename_i hflag
          split at h
          · simp only [catchBlock, State.emit, List.mem_append, List.mem_singleton] at h
            rcases h with (h | h) | h
            · exact Or.inl (hprobe (List.mem_append.2 h))
            · cases h
              exact Or.inr ⟨pr, tools, hpr, htools, hne, Or.inl ⟨rfl, hflag, rfl⟩⟩
            · cases h
          · rcases prompt_selectPort _ _ _ _ _ _ _ h with h1 | h1
            · simp only [State.emit, List.mem_append, List.mem_singleton] at h1
              rcases h1 with h1 | h1
              · exact Or.inl (hprobe (List.mem_append.2 h1))
              · cases h1
                exact Or.inr ⟨pr, tools, hpr, htools, hne, Or.inl ⟨rfl, hflag, rfl⟩⟩
            · exact Or.inr ⟨pr, tools, hpr, htools, hne, Or.inr h1⟩
        · rcases prompt_selectPort _ _ _ _ _ _ _ h with h1 | h1
          · exact Or.inl (hprobe h1)
          · exact Or.inr ⟨pr, tools, hpr, htools, hne, Or.inr h1⟩

theorem prompt_loadEnvironment (w : World) (s : State) (d : Defaults) (selectedEnv : String)
    (p : PromptSpec)
    (h : Event.prompt p ∈ (loadEnvironment w s d selectedEnv).state.events) :
    Event.prompt p ∈ s.events ∨
    ∃ pr tools environments, w.config.prompts = some pr ∧
      w.config.availableTools = some tools ∧ w.config.environments = some environments ∧
      (availableToolChoices w tools).1.length ≠ 0 ∧
      ((p.name = "tool" ∧ pr.tool ≠ some false ∧ p.choices = (availableToolChoices w tools).1) ∨
       (p.name = "portAlias" ∧ pr.port ≠ some false) ∨
       (p.name = "database" ∧ pr.database ≠ some false)) := by
  have keep : ∀ (s2 : State) (eco : Option EnvironmentConfig)
      (environments : List (String × EnvironmentConfig)),
      s2.events = s.events ++ [Event.dotenv (".env." ++ selectedEnv)] →
      w.config.environments = some environments →
      Event.prompt p ∈ (selectTool w s2 d eco).state.events →
      Event.prompt p ∈ s.events ∨
      ∃ pr tools environments, w.config.prompts = some pr ∧
        w.config.availableTools = some tools ∧ w.config.environments = some environments ∧
        (availableToolChoices w tools).1.length ≠ 0 ∧
        ((p.name = "tool" ∧ pr.tool ≠ some false ∧
            p.choices = (availableToolChoices w tools).1) ∨
         (p.name = "portAlias" ∧ pr.port ≠ some false) ∨
         (p.name = "database" ∧ pr.database ≠ some false)) := by
    intro s2 eco environments hev henvs hmem
    rcases prompt_selectTool w s2 d eco p hmem with h1 | ⟨pr, tools, h2, h3, h4⟩
    · rw [hev] at h1
      simp only [List.mem_append, List.mem_singleton] at h1
      rcases h1 with h1 | h1
      · exact Or.inl h1
      · cases h1
    · exact Or.inr ⟨pr, tools, environments, h2, h3, henvs, h4⟩
  unfold loadEnvironment at h
  simp only [] at h
  split at h
  · simp only [catchBlock, State.emit, List.mem_append, List.mem_singleton] at h
    rcases h with (h | h) | h
    · exact Or.inl h
    · cases h
    · cases h
  · split at h
    · simp only [State.emit, List.mem_append, List.mem_singleton] at h
      rcases h with (h | h) | h
      · exact Or.inl h
      · cases h
      · cases h
    · exact keep _ none _ rfl (by assumption) h
    · exact keep _ (some _) _ rfl (by assumption) h

/-- Every prompt of a run is one of the four, shown only under its condition. -/
theorem prompt_main (w : World) (p : PromptSpec)
    (h : Event.prompt p ∈ (main w).state.events) :
    ∃ d pr, w.config.defaults = some d ∧ w.config.prompts = some pr ∧
      ((p.name = "environment" ∧ pr.environment ≠ some false ∧ 1 < (envChoices w).length ∧
          p.choices = envChoices w) ∨
       ∃ tools environments, w.config.availableTools = some tools ∧
        w.config.environments = some environments ∧
        (availableToolChoices w tools).1.length ≠ 0 ∧
        ((p.name = "tool" ∧ pr.tool ≠ some false ∧
            p.choices = (availableToolChoices w tools).1) ∨
         (p.name = "portAlias" ∧ pr.port ≠ some false) ∨
         (p.name = "database" ∧ pr.database ≠ some false))) := by
  have later : ∀ (d : Defaults), w.config.defaults = some d →
      (∃ pr tools environments, w.config.prompts = some pr ∧
        w.config.availableTools = some tools ∧ w.config.environments = some environments ∧
        (availableToolChoices w tools).1.length ≠ 0 ∧
        ((p.name = "tool" ∧ pr.tool ≠ some false ∧
            p.choices = (availableToolChoices w tools).1) ∨
         (p.name = "portAlias" ∧ pr.port ≠ some false) ∨
         (p.name = "database" ∧ pr.database ≠ some false))) →
      ∃ d pr, w.config.defaults = some d ∧ w.config.prompts = some pr ∧
        ((p.name = "environment" ∧ pr.environment ≠ some false ∧
            1 < (envChoices w).length ∧ p.choices = envChoices w) ∨
         ∃ tools environments, w.config.availableTools = some tools ∧
          w.config.environments = some environments ∧
          (availableToolChoices w tools).1.length ≠ 0 ∧
          ((p.name = "tool" ∧ pr.tool ≠ some false ∧
              p.choices = (availableToolChoices w tools).1) ∨
           (p.name = "portAlias" ∧ pr.port ≠ some false) ∨
           (p.name = "database" ∧ pr.database ≠ some false))) := by
    rintro d hd ⟨pr, tools, environments, h1, h2, h3, h4⟩
    exact ⟨d, pr, hd, h1, Or.inr ⟨tools, environments, h2, h3, h4⟩⟩
  unfold main at h
  simp only [] at h
  split at h
  · simp [catchBlock, State.emit] at h
  · rename_i d hd
    split at h
    · simp [State.emit] at h
    · split at h
      · rename_i hlen
        split at h
        · simp [catchBlock, State.emit] at h
        · rename_i pr hpr
          split at h
          · rename_i hflag
            split at h
            · simp only [catchBlock, State.emit, List.nil_append, List.mem_append,
                List.mem_singleton] at h
              rcases h with h | h
              · cases h
                exact ⟨d, pr, hd, hpr, Or.inl ⟨rfl, hflag, hlen, rfl⟩⟩
              · cases h
            · rcases prompt_loadEnvironment _ _ _ _ _ h with h1 | h1
              · simp only [State.emit, List.nil_append, List.mem_singleton] at h1
                cases h1
                exact ⟨d, pr, hd, hpr, Or.inl ⟨rfl, hflag, hlen, rfl⟩⟩
              · exact later d hd h1
          · rcases prompt_loadEnvironment _ _ _ _ _ h with h1 | h1
            · simp at h1
            · exact later d hd h1
      · rcases prompt_loadEnvironment _ _ _ _ _ h with h1 | h1
        · simp at h1
        · exact later d hd h1

/-! ## Shared lemmas: the values of the `selected*` variables -/

theorem sel_launch (w : World) (s : State) (tool al : String) (port : JsValue) (db : String) :
    (launch w s tool al port db).state.selectedEnv = s.selectedEnv ∧
    (launch w s tool al port db).state.selectedTool = s.selectedTool ∧
    (launch w s tool al port db).state.selectedAlias = s.selectedAlias ∧
    (launch w s tool al port db).state.selectedDatabase = s.selectedDatabase := by
  obtain ⟨suffix, hst, _⟩ := launch_frame w s tool al port db
  rw [hst]
  exact ⟨rfl, rfl, rfl, rfl⟩

theorem sel_selectDatabase (w : World) (s : State) (d : Defaults) (pr : Prompts)
    (ec : EnvironmentConfig) (tool al : String) (port : JsValue) :
    (selectDatabase w s d pr ec tool al port).state.selectedEnv = s.selectedEnv ∧
    (selectDatabase w s d pr ec tool al port).state.selectedTool = s.selectedTool ∧
    (selectDatabase w s d pr ec tool al port).state.selectedAlias = s.selectedAlias ∧
    (pr.database = some false →
      (selectDatabase w s d pr ec tool al port).state.selectedDatabase = some d.database) := by
  unfold selectDatabase
  simp only []
  split
  · rename_i hflag
    split
    · exact ⟨rfl, rfl, rfl, fun h => absurd h hflag⟩
    · exact ⟨(sel_launch w _ _ _ _ _).1, (sel_launch w _ _ _ _ _).2.1,
        (sel_launch w _ _ _ _ _).2.2.1, fun h => absurd h hflag⟩
  · exact ⟨(sel_launch w _ _ _ _ _).1, (sel_launch w _ _ _ _ _).2.1,
      (sel_launch w _ _ _ _ _).2.2.1, fun _ => (sel_launch w _ _ _ _ _).2.2.2⟩

theorem sel_selectPort (w : World) (s : State) (d : Defaults) (pr : Prompts)
    (ec : Option EnvironmentConfig) (tool : String) :
    (selectPort w s d pr ec tool).state.selectedEnv = s.selectedEnv ∧
    (selectPort w s d pr ec tool).state.selectedTool = s.selectedTool ∧
    (pr.port = some false →
      (selectPort w s d pr ec tool).state.selectedAlias = some d.portAlias) ∧
    (pr.database = some false →
      (selectPort w s d pr ec tool).state.selectedDatabase = s.selectedDatabase ∨
      (selectPort w s d pr ec tool).state.selectedDatabase = some d.database) := by
  unfold selectPort
  simp only []
  split
  · rename_i hflag
    split
    · exact ⟨rfl, rfl, fun h => absurd h hflag, fun _ => Or.inl rfl⟩
    · split
      · exact ⟨rfl, rfl, fun h => absurd h hflag, fun _ => Or.inl rfl⟩
      · exact ⟨(sel_selectDatabase w _ d pr _ tool _ _).1,
          (sel_selectDatabase w _ d pr _ tool _ _).2.1, fun h => absurd h hflag,
          fun h => Or.inr ((sel_selectDatabase w _ d pr _ tool _ _).2.2.2 h)⟩
  · split
    · exact ⟨rfl, rfl, fun _ => rfl, fun _ => Or.inl rfl⟩
    · exact ⟨(sel_selectDatabase w _ d pr _ tool _ _).1,
        (sel_selectDatabase w _ d pr _ tool _ _).2.1,
        fun _ => (sel_selectDatabase w _ d pr _ tool _ _).2.2.1,
        fun h => Or.inr ((sel_selectDatabase w _ d pr _ tool _ _).2.2.2 h)⟩

theorem sel_selectTool (w : World) (s : State) (d : Defaults) (pr : Prompts)
    (ec : Option EnvironmentConfig) (hp : w.config.prompts = some pr) :
    (selectTool w s d ec).state.selectedEnv = s.selectedEnv ∧
    (pr.tool = some false →
      (selectTool w s d ec).state.selectedTool = s.selectedTool ∨
      (selectTool w s d ec).state.selectedTool = some d.tool) ∧
    (pr.port = some false →
      (selectTool w s d ec).state.selectedAlias = s.selectedAlias ∨
      (selectTool w s d ec).state.selectedAlias = some d.portAlias) ∧
    (pr.database = some false →
      (selectTool w s d ec).state.selectedDatabase = s.selectedDatabase ∨
      (selectTool w s d ec).state.selectedDatabase = some d.database) := by
  unfold selectTool
  split
  · exact ⟨rfl, fun _ => Or.inl rfl, fun _ => Or.inl rfl, fun _ => Or.inl rfl⟩
  · simp only []
    split
    · exact ⟨rfl, fun _ => Or.inl rfl, fun _ => Or.inl rfl, fun _ => Or.inl rfl⟩
    · split
      · exact ⟨rfl, fun _ => Or.inr rfl, fun _ => Or.inl rfl, fun _ => Or.inl rfl⟩
      · rename_i pr1 hpr1
        have hpr : pr1 = pr := by
          rw [hpr1] at hp
          exact Option.some.inj hp
        subst hpr
        split
        · rename_i hflag
          split
          · exact ⟨rfl, fun h => absurd h hflag, fun _ => Or.inl rfl, fun _ => Or.inl rfl⟩
          · exact ⟨(sel_selectPort w _ d pr1 ec _).1, fun h => absurd h hflag,
              fun h => Or.inr ((sel_selectPort w _ d pr1 ec _).2.2.1 h),
              fun h => (sel_selectPort w _ d pr1 ec _).2.2.2 h⟩
        · exact ⟨(sel_selectPort w _ d pr1 ec _).1,
            fun _ => Or.inr (sel_selectPort w _ d pr1 ec _).2.1,
            fun h => Or.inr ((sel_selectPort w _ d pr1 ec _).2.2.1 h),
            fun h => (sel_selectPort w _ d pr1 ec _).2.2.2 h⟩

theorem sel_loadEnvironment (w : World) (s : State) (d : Defaults) (pr : Prompts)
    (selectedEnv : String) (hp : w.config.prompts = some pr) :
    (loadEnvironment w s d selectedEnv).state.selectedEnv = s.selectedEnv ∧
    (pr.tool = some false →
      (loadEnvironment w s d selectedEnv).state.selectedTool = s.selectedTool ∨
      (loadEnvironment w s d selectedEnv).state.selectedTool = some d.tool) ∧
    (pr.port = some false →
      (loadEnvironment w s d selectedEnv).state.selectedAlias = s.selectedAlias ∨
      (loadEnvironment w s d selectedEnv).state.selectedAlias = some d.portAlias) ∧
    (pr.database = some false →
      (loadEnvironment w s d selectedEnv).state.selectedDatabase = s.selectedDatabase ∨
      (loadEnvironment w s d selectedEnv).state.selectedDatabase = some d.database) := by
  unfold loadEnvironment
  simp only []
  split
  · exact ⟨rfl, fun _ => Or.inl rfl, fun _ => Or.inl rfl, fun _ => Or.inl rfl⟩
  · split
    · exact ⟨rfl, fun _ => Or.inl rfl, fun _ => Or.inl rfl, fun _ => Or.inl rfl⟩
    · exact sel_selectTool w _ d pr none hp
    · exact sel_selectTool w _ d pr (some _) hp

theorem selectedEnv_selectTool (w : World) (s : State) (d : Defaults)
    (ec : Option EnvironmentConfig) :
    (selectTool w s d ec).state.selectedEnv = s.selectedEnv := by
  unfold selectTool
  split
  · rfl
  · simp only []
    split
    · rfl
    · split
      · rfl
      · split
        · split
          · rfl
          · exact (sel_selectPort w _ d _ ec _).1
        · exact (sel_selectPort w _ d _ ec _).1

theorem selectedEnv_loadEnvironment (w : World) (s : State) (d : Defaults)
    (selectedEnv : String) :
    (loadEnvironment w s d selectedEnv).state.selectedEnv = s.selectedEnv := by
  unfold loadEnvironment
  simp only []
  split
  · rfl
  · split
    · rfl
    · exact selectedEnv_selectTool w _ d none
    · exact selectedEnv_selectTool w _ d (some _)

/-- With at most one environment name, or with the environment prompt disabled,
`main` goes on with the default environment. -/
theorem main_default_environment (w : World) (d : Defaults)
    (hd : w.config.defaults = some d) (hne : (envChoices w).length ≠ 0)
    (h : (envChoices w).length ≤ 1 ∨
      ∃ pr, w.config.prompts = some pr ∧ pr.environment = some false) :
    main w = loadEnvironment w ⟨[], w.env, some d.environment, none, none, none⟩ d
      d.environment := by
  unfold main
  simp only [hd, hne, if_false]
  split
  · rename_i hlen
    rcases h with h | ⟨pr, hpr, hflag⟩
    · omega
    · simp only [hpr, hflag, ne_eq, not_true_eq_false, if_false]
  · rfl

theorem sel_main (w : World) (d : Defaults) (pr : Prompts)
    (hd : w.config.defaults = some d) (hp : w.config.prompts = some pr) :
    (pr.environment = some false → (main w).state.selectedEnv = some d.environment) ∧
    (pr.tool = some false →
      (main w).state.selectedTool = none ∨ (main w).state.selectedTool = some d.tool) ∧
    (pr.port = some false →
      (main w).state.selectedAlias = none ∨
      (main w).state.selectedAlias = some d.portAlias) ∧
    (pr.database = some false →
      (main w).state.selectedDatabase = none ∨
      (main w).state.selectedDatabase = some d.database) := by
  unfold main
  simp only [hd, hp]
  split
  · exact ⟨fun _ => rfl, fun _ => Or.inl rfl, fun _ => Or.inl rfl, fun _ => Or.inl rfl⟩
  · split
    · split
      · rename_i hflag
        split
        · exact ⟨fun h => absurd h hflag, fun _ => Or.inl rfl, fun _ => Or.inl rfl,
            fun _ => Or.inl rfl⟩
        · exact ⟨fun h => absurd h hflag, (sel_loadEnvironment w _ d pr _ hp).2.1,
            (sel_loadEnvironment w _ d pr _ hp).2.2.1,
            (sel_loadEnvironment w _ d pr _ hp).2.2.2⟩
      · exact ⟨fun _ => (sel_loadEnvironment w _ d pr _ hp).1,
          (sel_loadEnvironment w _ d pr _ hp).2.1,
          (sel_loadEnvironment w _ d pr _ hp).2.2.1,
          (sel_loadEnvironment w _ d pr _ hp).2.2.2⟩
    · exact ⟨fun _ => (sel_loadEnvironment w _ d pr _ hp).1,
        (sel_loadEnvironment w _ d pr _ hp).2.1,
        (sel_loadEnvironment w _ d pr _ hp).2.2.1,
        (sel_loadEnvironment w _ d pr _ hp).2.2.2⟩

/-- The banner of a run shows the selected database and the selected alias. -/
theorem banner_mem (w : World) (db al : String)
    (h : Event.banner db al ∈ (main w).state.events) :
    (main w).state.selectedAlias = some al ∧ (main w).state.selectedDatabase = some db := by
  rcases main_reach w with
    ⟨_, hl⟩ | ⟨s1, selectedEnv, tool, al1, port, db1, hm, hpre, _, _, _, h4, h5, _⟩
  · have := hl _ h
    simp [Event.isLaunch] at this
  · have hnot : Event.banner db al ∉ s1.events := by
      intro hmem
      have := hpre _ hmem
      simp [Event.isLaunch] at this
    have hsel := sel_launch w s1 tool al1 port db1
    have key : db = db1 ∧ al = al1 := by
      rcases truthy_cases (s1.env.lookup "DB_READ_PROXY_HOST") with hh | ⟨host, hh⟩
      · rw [hm, launch_missing w s1 tool al1 port db1 (Or.inl hh)] at h
        simpa [hnot] using h
      rcases truthy_cases (s1.env.lookup "DB_READ_PROXY_USER") with hu | ⟨user, hu⟩
      · rw [hm, launch_missing w s1 tool al1 port db1 (Or.inr (Or.inl hu))] at h
        simpa [hnot] using h
      rcases truthy_cases (s1.env.lookup "DB_READ_PROXY_PASSWORD") with hp | ⟨password, hp⟩
      · rw [hm, launch_missing w s1 tool al1 port db1 (Or.inr (Or.inr hp))] at h
        simpa [hnot] using h
      rw [hm, launch_present w s1 tool al1 port db1 host user password hh hu hp] at h
      split at h
      · simpa [hnot] using h
      · simpa [hnot] using h
      · rename_i code _
        by_cases hc : code = some 0 <;> simpa [hnot, hc] using h
    obtain ⟨rfl, rfl⟩ := key
    rw [hm]
    exact ⟨hsel.2.2.1.trans h4, hsel.2.2.2.trans h5⟩

/-! ## The string helpers on file names -/

theorem replace_envPrefix (e : String) : replace (".env." ++ e) ".env." "" = e := by
  have h1 : (".env." ++ e).data = '.' :: 'e' :: 'n' :: 'v' :: '.' :: e.data := by
    rw [String.data_append]; rfl
  have h2 : (".env." : String).data = ['.', 'e', 'n', 'v', '.'] := rfl
  have h3 : ("" : String).data = [] := rfl
  unfold replace
  rw [h1, h2, h3]
  simp [replaceChars]


/-- C4: for each of the four fields, when `prompts.<field>` is `false` the
prompt of that field is never shown and the selected value is the default,
unchecked against any choice list: the run continues with
`defaults.environment`; the tool variable, once declared, holds `defaults.tool`
and that is the file spawned; the alias and database variables, once declared,
hold `defaults.portAlias` and `defaults.database`, and those are what the
banner shows. -/
theorem C4_disabled_prompts (w : World) (d : Defaults) (pr : Prompts)
    (hd : w.config.defaults = some d) (hp : w.config.prompts = some pr) :
    (pr.environment = some false →
      (∀ p, Event.prompt p ∈ (main w).state.events → p.name ≠ "environment") ∧
      (main w).state.selectedEnv = some d.environment ∧
      ((envChoices w).length ≠ 0 →
        main w = loadEnvironment w ⟨[], w.env, some d.environment, none, none, none⟩ d
          d.environment)) ∧
    (pr.tool = some false →
      (∀ p, Event.prompt p ∈ (main w).state.events → p.name ≠ "tool") ∧
      ((main w).state.selectedTool = none ∨ (main w).state.selectedTool = some d.tool) ∧
      (∀ file args cenv, Event.spawn file args cenv ∈ (main w).state.events →
        file = d.tool)) ∧
    (pr.port = some false →
      (∀ p, Event.prompt p ∈ (main w).state.events → p.name ≠ "portAlias") ∧
      ((main w).state.selectedAlias = none ∨
        (main w).state.selectedAlias = some d.portAlias) ∧
      (∀ db al, Event.banner db al ∈ (main w).state.events → al = d.portAlias)) ∧
    (pr.database = some false →
      (∀ p, Event.prompt p ∈ (main w).state.events → p.name ≠ "database") ∧
      ((main w).state.selectedDatabase = none ∨
        (main w).state.selectedDatabase = some d.database) ∧
      (∀ db al, Event.banner db al ∈ (main w).state.events → db = d.database)) := by
  obtain ⟨hsel1, hsel2, hsel3, hsel4⟩ := sel_main w d pr hd hp
  have hprompt : ∀ (p : PromptSpec), Event.prompt p ∈ (main w).state.events →
      (p.name = "environment" ∧ pr.environment ≠ some false) ∨
      (p.name = "tool" ∧ pr.tool ≠ some false) ∨
      (p.name = "portAlias" ∧ pr.port ≠ some false) ∨
      (p.name = "database" ∧ pr.database ≠ some false) := by
    intro p hmem
    obtain ⟨d1, pr1, _, hpr1, hcase⟩ := prompt_main w p hmem
    have hpr : pr1 = pr := by
      rw [hpr1] at hp
      exact Option.some.inj hp
    subst hpr
    rcases hcase with ⟨h1, h2, _, _⟩ | ⟨_, _, _, _, _, ⟨h1, h2, _⟩ | h1 | h1⟩
    · exact Or.inl ⟨h1, h2⟩
    · exact Or.inr (Or.inl ⟨h1, h2⟩)
    · exact Or.inr (Or.inr (Or.inl h1))
    · exact Or.inr (Or.inr (Or.inr h1))
  refine ⟨?_, ?_, ?_, ?_⟩
  · intro hflag
    refine ⟨?_, hsel1 hflag, ?_⟩
    · intro p hmem hname
      rcases hprompt p hmem with h1 | h1 | h1 | h1
      · exact h1.2 hflag
      · rw [hname] at h1; exact absurd h1.1 (by decide)
      · rw [hname] at h1; exact absurd h1.1 (by decide)
      · rw [hname] at h1; exact absurd h1.1 (by decide)
    · intro hne
      exact main_default_environment w d hd hne (Or.inr ⟨pr, hp, hflag⟩)
  · intro hflag
    refine ⟨?_, hsel2 hflag, ?_⟩
    · intro p hmem hname
      rcases hprompt p hmem with h1 | h1 | h1 | h1
      · rw [hname] at h1; exact absurd h1.1 (by decide)
      · exact h1.2 hflag
      · rw [hname] at h1; exact absurd h1.1 (by decide)
      · rw [hname] at h1; exact absurd h1.1 (by decide)
    · intro file args cenv hs
      obtain ⟨s1, selectedEnv, al, p, db, h, u, password, hm, _, _, _, h3, _⟩ :=
        spawn_mem w file args cenv hs
      have hfin : (main w).state.selectedTool = some file := by
        rw [hm]
        exact (sel_launch w s1 file al p db).2.1.trans h3
      rcases hsel2 hflag with h1 | h1
      · rw [h1] at hfin; cases hfin
      · rw [h1] at hfin; exact (Option.some.inj hfin).symm
  · intro hflag
    refine ⟨?_, hsel3 hflag, ?_⟩
    · intro p hmem hname
      rcases hprompt p hmem with h1 | h1 | h1 | h1
      · rw [hname] at h1; exact absurd h1.1 (by decide)
      · rw [hname] at h1; exact absurd h1.1 (by decide)
      · exact h1.2 hflag
      · rw [hname] at h1; exact absurd h1.1 (by decide)
    · intro db al hb
      have hfin := (banner_mem w db al hb).1
      rcases hsel3 hflag with h1 | h1
      · rw [h1] at hfin; cases hfin
      · rw [h1] at hfin; exact (Option.some.inj hfin).symm
  · intro hflag
    refine ⟨?_, hsel4 hflag, ?_⟩
    · intro p hmem hname
      rcases hprompt p hmem with h1 | h1 | h1 | h1
      · rw [hname] at h1; exact absurd h1.1 (by decide)
      · rw [hname] at h1; exact absurd h1.1 (by decide)
      · rw [hname] at h1; exact absurd h1.1 (by decide)
      · exact h1.2 hflag
    · intro db al hb
      have hfin := (banner_mem w db al hb).2
      rcases hsel4 hflag with h1 | h1
      · rw [h1] at hfin; cases hfin
      · rw [h1] at hfin; exact (Option.some.inj hfin).symm

/-- Witness for C4: `skipWorld` disables all four prompts and none of its
defaults is among the corresponding choices. -/
theorem C4_disabled_prompts_witness :
    skipWorld.config.defaults = some skipDefaults ∧
    skipWorld.config.prompts = some skipPrompts ∧
    "dev" ∉ envChoices skipWorld ∧
    "mysql" ∉ (availableToolChoices skipWorld ["pgcli", "psql"]).1 ∧
    "analytics" ∉ devEnvironment.portAliases.map Prod.fst ∧
    "reports" ∉ devEnvironment.databases ∧
    (main skipWorld).state.events.any Event.isPrompt = false ∧
    (main skipWorld).state.selectedEnv = some "dev" ∧
    (main skipWorld).state.selectedTool = some "mysql" ∧
    (main skipWorld).state.selectedAlias = some "analytics" ∧
    (main skipWorld).state.selectedDatabase = some "reports" ∧
    (∀ file args cenv, Event.spawn file args cenv ∈ (main skipWorld).state.events →
      file = skipDefaults.tool) ∧
    (∀ db al, Event.banner db al ∈ (main skipWorld).state.events →
      al = skipDefaults.portAlias) ∧
    (∀ db al, Event.banner db al ∈ (main skipWorld).state.events →
      db = skipDefaults.database) :=
  ⟨rfl, rfl, by decide, by decide, by decide, by decide, by decide, by decide, by decide,
    by decide, by decide,
    ((C4_disabled_prompts skipWorld skipDefaults skipPrompts rfl rfl).2.1 rfl).2.2,
    ((C4_disabled_prompts skipWorld skipDefaults skipPrompts rfl rfl).2.2.1 rfl).2.2,
    ((C4_disabled_prompts skipWorld skipDefaults skipPrompts rfl rfl).2.2.2 rfl).2.2⟩

/-! ## The tool probe -/

theorem commandExists_eq (w : World) (cmd : String) :
    commandExists w cmd = (w.which cmd).isSome := by
  unfold commandExists
  cases w.which cmd <;> rfl

theorem availableToolChoices_fst (w : World) (tools : List String) :
    (availableToolChoices w tools).1 = tools.filter (fun t => (w.which t).isSome) := by
  induction tools with
  | nil => rfl
  | cons t ts ih =>
    simp only [availableToolChoices, commandExists_eq]
    cases hw : w.which t with
    | none => simp [List.filter, hw, ih]
    | some path => simp [List.filter, hw, ih]

theorem availableToolChoices_snd (w : World) (tools : List String) :
    (availableToolChoices w tools).2 =
      (tools.filter (fun t => !(w.which t).isSome)).map
        (fun t => Event.toolNotFound t (getInstallInstructions w t)) := by
  induction tools with
  | nil => rfl
  | cons t ts ih =>
    simp only [availableToolChoices, commandExists_eq]
    cases hw : w.which t with
    | none => simp [List.filter, hw, ih]
    | some path => simp [List.filter, hw, ih]

/-! ## Shared lemmas: where the secret file, the missing-configuration report and the hints come from -/

theorem early_launch (w : World) (s : State) (tool al : String) (port : JsValue) (db : String)
    (e : Event) (he : e.isEarly = true) (h : e ∈ (launch w s tool al port db).state.events) :
    e ∈ s.events := by
  obtain ⟨suffix, hst, hsuf⟩ := launch_frame w s tool al port db
  rw [hst] at h
  rcases List.mem_append.1 h with h | h
  · exact h
  · have := hsuf _ h
    cases e <;> simp_all [Event.isLaunch, Event.isEarly]

theorem early_selectDatabase (w : World) (s : State) (d : Defaults) (pr : Prompts)
    (ec : EnvironmentConfig) (tool al : String) (port : JsValue) (e : Event)
    (he : e.isEarly = true)
    (h : e ∈ (selectDatabase w s d pr ec tool al port).state.events) : e ∈ s.events := by
  unfold selectDatabase at h
  simp only [] at h
  split at h
  · split at h
    · simp only [catchBlock, State.emit, List.mem_append, List.mem_singleton] at h
      rcases h with (h | h) | h
      · exact h
      · subst h; cases he
      · subst h; cases he
    · have h1 := early_launch _ _ _ _ _ _ _ he h
      simp only [State.emit, List.mem_append, List.mem_singleton] at h1
      rcases h1 with h1 | h1
      · exact h1
      · subst h1; cases he
  · have h1 := early_launch _ _ _ _ _ _ _ he h
    exact h1

theorem early_selectPort (w : World) (s : State) (d : Defaults) (pr : Prompts)
    (ec : Option EnvironmentConfig) (tool : String) (e : Event) (he : e.isEarly = true)
    (h : e ∈ (selectPort w s d pr ec tool).state.events) : e ∈ s.events := by
  unfold selectPort at h
  simp only [] at h
  split at h
  · split at h
    · simp only [catchBlock, State.emit, List.mem_append, List.mem_singleton] at h
      rcases h with h | h
      · exact h
      · subst h; cases he
    · split at h
      · simp only [catchBlock, State.emit, List.mem_append, List.mem_singleton] at h
        rcases h with (h | h) | h
        · exact h
        · subst h; cases he
        · subst h; cases he
      · have h1 := early_selectDatabase _ _ _ _ _ _ _ _ _ he h
        simp only [State.emit, List.mem_append, List.mem_singleton] at h1
        rcases h1 with h1 | h1
        · exact h1
        · subst h1; cases he
  · split at h
    · simp only [catchBlock, State.emit, List.mem_append, List.mem_singleton] at h
      rcases h with h | h
      · exact h
      · subst h; cases he
    · have h1 := early_selectDatabase _ _ _ _ _ _ _ _ _ he h
      exact h1

theorem early_selectTool (w : World) (s : State) (d : Defaults)
    (ec : Option EnvironmentConfig) (e : Event) (he : e.isEarly = true)
    (h : e ∈ (selectTool w s d ec).state.events) :
    e ∈ s.events ∨
    ∃ tools, w.config.availableTools = some tools ∧ e ∈ (availableToolChoices w tools).2 := by
  unfold selectTool at h
  split at h
  · simp only [catchBlock, State.emit, List.mem_append, List.mem_singleton] at h
    rcases h with h | h
    · exact Or.inl h
    · subst h; cases he
  · rename_i tools htools
    simp only [] at h
    have hprobe : e ∈ s.events ++ (availableToolChoices w tools).2 →
        e ∈ s.events ∨
        ∃ tools, w.config.availableTools = some tools ∧
          e ∈ (availableToolChoices w tools).2 := by
      intro hm
      rcases List.mem_append.1 hm with hm | hm
      · exact Or.inl hm
      · exact Or.inr ⟨tools, htools, hm⟩
    split at h
    · simp only [State.emit, List.mem_append, List.mem_singleton] at h
      rcases h with h | h
      · exact hprobe (List.mem_append.2 h)
      · subst h; cases he
    · split at h
      · simp only [catchBlock, State.emit, List.mem_append, List.mem_singleton] at h
        rcases h with h | h
        · exact hprobe (List.mem_append.2 h)
        · subst h; cases he
      · split at h
        · split at h
          · simp only [catchBlock, State.emit, List.mem_append, List.mem_singleton] at h
            rcases h with (h | h) | h
            · exact hprobe (List.mem_append.2 h)
            · subst h; cases he
            · subst h; cases he
          · have h1 := early_selectPort _ _ _ _ _ _ _ he h
            simp only [State.emit, List.mem_append, List.mem_singleton] at h1
            rcases h1 with h1 | h1
            · exact hprobe (List.mem_append.2 h1)
            · subst h1; cases he
        · have h1 := early_selectPort _ _ _ _ _ _ _ he h
          exact hprobe h1

theorem early_loadEnvironment (w : World) (s : State) (d : Defaults) (selectedEnv : String)
    (e : Event) (he : e.isEarly = true)
    (h : e ∈ (loadEnvironment w s d selectedEnv).state.events) :
    e ∈ s.events ∨ e = .dotenv (".env." ++ selectedEnv) ∨
    (e = .noConfig selectedEnv ∧ ∃ environments,
      w.config.environments = some environments ∧
      getProp environments selectedEnv = .missing) ∨
    ∃ tools, w.config.availableTools = some tools ∧ e ∈ (availableToolChoices w tools).2 := by
  have keep : ∀ (s2 : State) (eco : Option EnvironmentConfig),
      s2.events = s.events ++ [Event.dotenv (".env." ++ selectedEnv)] →
      e ∈ (selectTool w s2 d eco).state.events →
      e ∈ s.events ∨ e = .dotenv (".env." ++ selectedEnv) ∨
      (e = .noConfig selectedEnv ∧ ∃ environments,
        w.config.environments = some environments ∧
        getProp environments selectedEnv = .missing) ∨
      ∃ tools, w.config.availableTools = some tools ∧
        e ∈ (availableToolChoices w tools).2 := by
    intro s2 eco hev hmem
    rcases early_selectTool w s2 d eco e he hmem with h1 | h1
    · rw [hev] at h1
      simp only [List.mem_append, List.mem_singleton] at h1
      rcases h1 with h1 | h1
      · exact Or.inl h1
      · exact Or.inr (Or.inl h1)
    · exact Or.inr (Or.inr (Or.inr h1))
  unfold loadEnvironment at h
  simp only [] at h
  split at h
  · simp only [catchBlock, State.emit, List.mem_append, List.mem_singleton] at h
    rcases h with (h | h) | h
    · exact Or.inl h
    · exact Or.inr (Or.inl h)
    · subst h; cases he
  · rename_i environments henvs
    split at h
    · rename_i hmiss
      simp only [State.emit, List.mem_append, List.mem_singleton] at h
      rcases h with (h | h) | h
      · exact Or.inl h
      · exact Or.inr (Or.inl h)
      · exact Or.inr (Or.inr (Or.inl ⟨h, environments, henvs, hmiss⟩))
    · exact keep _ none rfl h
    · exact keep _ (some _) rfl h

/-- Every install hint of a run is printed by the tool probe. -/
theorem hint_main (w : World) (t : String) (tip : Option String)
    (h : Event.toolNotFound t tip ∈ (main w).state.events) :
    ∃ tools, w.config.availableTools = some tools ∧
      Event.toolNotFound t tip ∈ (availableToolChoices w tools).2 := by
  have keep : ∀ (s : State) (d : Defaults) (selectedEnv : String),
      (∀ x ∈ s.events, x.isEarly = false) →
      Event.toolNotFound t tip ∈ (loadEnvironment w s d selectedEnv).state.events →
      ∃ tools, w.config.availableTools = some tools ∧
        Event.toolNotFound t tip ∈ (availableToolChoices w tools).2 := by
    intro s d selectedEnv hs hmem
    rcases early_loadEnvironment w s d selectedEnv (Event.toolNotFound t tip) rfl hmem with
      h1 | h1 | h1 | h1
    · have := hs _ h1
      cases this
    · cases h1
    · cases h1.1
    · exact h1
  unfold main at h
  simp only [] at h
  split at h
  · simp [catchBlock, State.emit] at h
  · split at h
    · simp [State.emit] at h
    · split at h
      · split at h
        · simp [catchBlock, State.emit] at h
        · split at h
          · split at h
            · simp [catchBlock, State.emit] at h
            · refine keep _ _ _ ?_ h
              simp [State.emit, Event.isEarly]
          · refine keep _ _ _ ?_ h
            simp
      · refine keep _ _ _ ?_ h
        simp

/-! ## Shared lemmas: every part of `main` only appends to the trace -/

theorem events_extend_launch (w : World) (s : State) (tool al : String) (port : JsValue)
    (db : String) : s.events <+: (launch w s tool al port db).state.events := by
  obtain ⟨suffix, hst, _⟩ := launch_frame w s tool al port db
  rw [hst]
  exact List.prefix_append _ _

theorem events_extend_selectDatabase (w : World) (s : State) (d : Defaults) (pr : Prompts)
    (ec : EnvironmentConfig) (tool al : String) (port : JsValue) :
    s.events <+: (selectDatabase w s d pr ec tool al port).state.events := by
  unfold selectDatabase
  simp only []
  split
  · split
    · simp only [catchBlock, State.emit, List.append_assoc]
      exact List.prefix_append _ _
    · refine List.IsPrefix.trans ?_ (events_extend_launch w _ _ _ _ _)
      exact List.prefix_append _ _
  · refine List.IsPrefix.trans ?_ (events_extend_launch w _ _ _ _ _)
    exact List.prefix_rfl

theorem events_extend_selectPort (w : World) (s : State) (d : Defaults) (pr : Prompts)
    (ec : Option EnvironmentConfig) (tool : String) :
    s.events <+: (selectPort w s d pr ec tool).state.events := by
  unfold selectPort
  simp only []
  split
  · split
    · exact List.prefix_append _ _
    · split
      · simp only [catchBlock, State.emit, List.append_assoc]
        exact List.prefix_append _ _
      · refine List.IsPrefix.trans ?_ (events_extend_selectDatabase w _ d pr _ tool _ _)
        exact List.prefix_append _ _
  · split
    · exact List.prefix_append _ _
    · refine List.IsPrefix.trans ?_ (events_extend_selectDatabase w _ d pr _ tool _ _)
      exact List.prefix_rfl

/-- The tool step appends the hints of the probe to the trace before anything else. -/
theorem selectTool_hints (w : World) (s : State) (d : Defaults)
    (ec : Option EnvironmentConfig) (tools : List String)
    (ht : w.config.availableTools = some tools) :
    s.events ++ (availableToolChoices w tools).2 <+: (selectTool w s d ec).state.events := by
  unfold selectTool
  simp only [ht]
  split
  · exact List.prefix_append _ _
  · split
    · exact List.prefix_append _ _
    · split
      · split
        · simp only [catchBlock, State.emit, List.append_assoc]
          rw [← List.append_assoc]
          exact List.prefix_append _ _
        · refine List.IsPrefix.trans ?_ (events_extend_selectPort w _ d _ ec _)
          exact List.prefix_append _ _
      · refine List.IsPrefix.trans ?_ (events_extend_selectPort w _ d _ ec _)
        exact List.prefix_rfl

theorem events_extend_selectTool (w : World) (s : State) (d : Defaults)
    (ec : Option EnvironmentConfig) : s.events <+: (selectTool w s d ec).state.events := by
  unfold selectTool
  split
  · exact List.prefix_append _ _
  · rename_i tools htools
    exact List.IsPrefix.trans (List.prefix_append _ _)
      (by simpa [selectTool, htools] using selectTool_hints w s d ec tools htools)

theorem events_extend_loadEnvironment (w : World) (s : State) (d : Defaults)
    (selectedEnv : String) :
    s.events ++ [Event.dotenv (".env." ++ selectedEnv)] <+:
      (loadEnvironment w s d selectedEnv).state.events := by
  unfold loadEnvironment
  simp only []
  split
  · exact List.prefix_append _ _
  · split
    · exact List.prefix_append _ _
    · refine List.IsPrefix.trans ?_ (events_extend_selectTool w _ d none)
      exact List.prefix_rfl
    · refine List.IsPrefix.trans ?_ (events_extend_selectTool w _ d (some _))
      exact List.prefix_rfl

/-! ## Shared lemmas: `process.env` changes only when the secret file is loaded -/

theorem env_selectDatabase (w : World) (s : State) (d : Defaults) (pr : Prompts)
    (ec : EnvironmentConfig) (tool al : String) (port : JsValue) :
    (selectDatabase w s d pr ec tool al port).state.env = s.env := by
  unfold selectDatabase
  simp only []
  split
  · split
    · rfl
    · exact launch_env w _ _ _ _ _
  · exact launch_env w _ _ _ _ _

theorem env_selectPort (w : World) (s : State) (d : Defaults) (pr : Prompts)
    (ec : Option EnvironmentConfig) (tool : String) :
    (selectPort w s d pr ec tool).state.env = s.env := by
  unfold selectPort
  simp only []
  split
  · split
    · rfl
    · split
      · rfl
      · exact env_selectDatabase w _ d pr _ tool _ _
  · split
    · rfl
    · exact env_selectDatabase w _ d pr _ tool _ _

theorem env_selectTool (w : World) (s : State) (d : Defaults)
    (ec : Option EnvironmentConfig) : (selectTool w s d ec).state.env = s.env := by
  unfold selectTool
  split
  · rfl
  · simp only []
    split
    · rfl
    · split
      · rfl
      · split
        · split
          · rfl
          · exact env_selectPort w _ d _ ec _
        · exact env_selectPort w _ d _ ec _

theorem env_loadEnvironment (w : World) (s : State) (d : Defaults) (selectedEnv : String) :
    (loadEnvironment w s d selectedEnv).state.env = w.dotenv (".env." ++ selectedEnv) s.env := by
  unfold loadEnvironment
  simp only []
  split
  · rfl
  · split
    · rfl
    · exact env_selectTool w _ d none
    · exact env_selectTool w _ d (some _)

/-! ## Shared lemmas: the choices of the port-alias and database prompts -/

theorem choices_selectDatabase (w : World) (s : State) (d : Defaults) (pr : Prompts)
    (ec : EnvironmentConfig) (tool al : String) (port : JsValue) (p : PromptSpec)
    (h : Event.prompt p ∈ (selectDatabase w s d pr ec tool al port).state.events) :
    Event.prompt p ∈ s.events ∨ (p.name = "database" ∧ p.choices = ec.databases) := by
  unfold selectDatabase at h
  simp only [] at h
  split at h
  · split at h
    · simp only [catchBlock, State.emit, List.mem_append, List.mem_singleton] at h
      rcases h with (h | h) | h
      · exact Or.inl h
      · cases h
        exact Or.inr ⟨rfl, rfl⟩
      · cases h
    · have h1 := prompt_launch _ _ _ _ _ _ _ h
      simp only [State.emit, List.mem_append, List.mem_singleton] at h1
      rcases h1 with h1 | h1
      · exact Or.inl h1
      · cases h1
        exact Or.inr ⟨rfl, rfl⟩
  · have h1 := prompt_launch _ _ _ _ _ _ _ h
    exact Or.inl h1

theorem choices_selectPort (w : World) (s : State) (d : Defaults) (pr : Prompts)
    (ec : Option EnvironmentConfig) (tool : String) (p : PromptSpec)
    (h : Event.prompt p ∈ (selectPort w s d pr ec tool).state.events) :
    Event.prompt p ∈ s.events ∨
    ∃ ec1, ec = some ec1 ∧
      ((p.name = "portAlias" ∧ p.choices = ec1.portAliases.map Prod.fst) ∨
       (p.name = "database" ∧ p.choices = ec1.databases)) := by
  unfold selectPort at h
  simp only [] at h
  split at h
  · split at h
    · simp only [catchBlock, State.emit, List.mem_append, List.mem_singleton] at h
      rcases h with h | h
      · exact Or.inl h
      · cases h
    · split at h
      · simp only [catchBlock, State.emit, List.mem_append, List.mem_singleton] at h
        rcases h with (h | h) | h
        · exact Or.inl h
        · cases h
          exact Or.inr ⟨_, rfl, Or.inl ⟨rfl, rfl⟩⟩
        · cases h
      · rcases choices_selectDatabase _ _ _ _ _ _ _ _ _ h with h1 | h1
        · simp only [State.emit, List.mem_append, List.mem_singleton] at h1
          rcases h1 with h1 | h1
          · exact Or.inl h1
          · cases h1
            exact Or.inr ⟨_, rfl, Or.inl ⟨rfl, rfl⟩⟩
        · exact Or.inr ⟨_, rfl, Or.inr h1⟩
  · split at h
    · simp only [catchBlock, State.emit, List.mem_append, List.mem_singleton] at h
      rcases h with h | h
      · exact Or.inl h
      · cases h
    · rcases choices_selectDatabase _ _ _ _ _ _ _ _ _ h with h1 | h1
      · exact Or.inl h1
      · exact Or.inr ⟨_, rfl, Or.inr h1⟩

theorem choices_selectTool (w : World) (s : State) (d : Defaults)
    (ec : Option EnvironmentConfig) (p : PromptSpec)
    (h : Event.prompt p ∈ (selectTool w s d ec).state.events) :
    Event.prompt p ∈ s.events ∨ p.name = "tool" ∨
    ∃ ec1, ec = some ec1 ∧
      ((p.name = "portAlias" ∧ p.choices = ec1.portAliases.map Prod.fst) ∨
       (p.name = "database" ∧ p.choices = ec1.databases)) := by
  unfold selectTool at h
  split at h
  · simp only [catchBlock, State.emit, List.mem_append, List.mem_singleton] at h
    rcases h with h | h
    · exact Or.inl h
    · cases h
  · rename_i tools htools
    simp only [] at h
    have hprobe : Event.prompt p ∈ s.events ++ (availableToolChoices w tools).2 →
        Event.prompt p ∈ s.events := by
      intro hm
      rcases List.mem_append.1 hm with hm | hm
      · exact hm
      · exact absurd hm (hints_not_prompt w tools p)
    split at h
    · simp only [State.emit, List.mem_append, List.mem_singleton] at h
      rcases h with h | h
      · exact Or.inl (hprobe (List.mem_append.2 h))
      · cases h
    · split at h
      · simp only [catchBlock, State.emit, List.mem_append, List.mem_singleton] at h
        rcases h with h | h
        · exact Or.inl (hprobe (List.mem_append.2 h))
        · cases h
      · split at h
        · split at h
          · simp only [catchBlock, State.emit, List.mem_append, List.mem_singleton] at h
            rcases h with (h | h) | h
            · exact Or.inl (hprobe (List.mem_append.2 h))
            · cases h
              exact Or.inr (Or.inl rfl)
            · cases h
          · rcases choices_selectPort _ _ _ _ _ _ _ h with h1 | h1
            · simp only [State.emit, List.mem_append, List.mem_singleton] at h1
              rcases h1 with h1 | h1
              · exact Or.inl (hprobe (List.mem_append.2 h1))
              · cases h1
                exact Or.inr (Or.inl rfl)
            · exact Or.inr (Or.inr h1)
        · rcases choices_selectPort _ _ _ _ _ _ _ h with h1 | h1
          · exact Or.inl (hprobe h1)
          · exact Or.inr (Or.inr h1)

theorem choices_loadEnvironment (w : World) (s : State) (d : Defaults) (selectedEnv : String)
    (p : PromptSpec)
    (h : Event.prompt p ∈ (loadEnvironment w s d selectedEnv).state.events) :
    Event.prompt p ∈ s.events ∨ p.name = "tool" ∨
    ∃ environments ec1, w.config.environments = some environments ∧
      getProp environments selectedEnv = .own ec1 ∧
      ((p.name = "portAlias" ∧ p.choices = ec1.portAliases.map Prod.fst) ∨
       (p.name = "database" ∧ p.choices = ec1.databases)) := by
  have keep : ∀ (s2 : State) (eco : Option EnvironmentConfig)
      (environments : List (String × EnvironmentConfig)),
      s2.events = s.events ++ [Event.dotenv (".env." ++ selectedEnv)] →
      w.config.environments = some environments →
      (∀ ec1, eco = some ec1 → getProp environments selectedEnv = .own ec1) →
      Event.prompt p ∈ (selectTool w s2 d eco).state.events →
      Event.prompt p ∈ s.events ∨ p.name = "tool" ∨
      ∃ environments ec1, w.config.environments = some environments ∧
        getProp environments selectedEnv = .own ec1 ∧
        ((p.name = "portAlias" ∧ p.choices = ec1.portAliases.map Prod.fst) ∨
         (p.name = "database" ∧ p.choices = ec1.databases)) := by
    intro s2 eco environments hev henvs hown hmem
    rcases choices_selectTool w s2 d eco p hmem with h1 | h1 | ⟨ec1, h2, h3⟩
    · rw [hev] at h1
      simp only [List.mem_append, List.mem_singleton] at h1
      rcases h1 with h1 | h1
      · exact Or.inl h1
      · cases h1
    · exact Or.inr (Or.inl h1)
    · exact Or.inr (Or.inr ⟨environments, ec1, henvs, hown ec1 h2, h3⟩)
  unfold loadEnvironment at h
  simp only [] at h
  split at h
  · simp only [catchBlock, State.emit, List.mem_append, List.mem_singleton] at h
    rcases h with (h | h) | h
    · exact Or.inl h
    · cases h
    · cases h
  · split at h
    · simp only [State.emit, List.mem_append, List.mem_singleton] at h
      rcases h with (h | h) | h
      · exact Or.inl h
      · cases h
      · cases h
    · refine keep _ none _ rfl (by assumption) ?_ h
      intro ec1 hec
      cases hec
    · rename_i hown
      refine keep _ (some _) _ rfl (by assumption) ?_ h
      intro ec1 hec
      cases hec
      exact hown

theorem loadEnvironment_events_cons (w : World) (s : State) (d : Defaults)
    (selectedEnv : String) (x : Event) (hs : s.events = [x]) :
    ∃ rest, (loadEnvironment w s d selectedEnv).state.events = x :: rest ∧ rest ≠ [] := by
  obtain ⟨t, ht⟩ := events_extend_loadEnvironment w s d selectedEnv
  rw [hs] at ht
  exact ⟨Event.dotenv (".env." ++ selectedEnv) :: t, ht.symm, by simp⟩

theorem loadEnvironment_head (w : World) (s : State) (d : Defaults) (selectedEnv : String)
    (hs : s.events = []) :
    (loadEnvironment w s d selectedEnv).state.events.head? =
      some (Event.dotenv (".env." ++ selectedEnv)) := by
  obtain ⟨t, ht⟩ := events_extend_loadEnvironment w s d selectedEnv
  rw [hs] at ht
  rw [← ht]
  rfl

/-! ## Claims about the selection (lines 81-158) -/

/-- C6: the tool choice list is the sublist of `availableTools` whose probe
succeeds, in order (a throwing probe counts as absent); a hint is printed for
exactly the absent tools, in order: the tool step appends exactly these hints
to the trace, and every hint of a run is for an absent tool of the list; the
tool prompt, when shown, offers exactly the choice list; and when that list is
empty the tool step prints the hints and the error and exits with code 1, so
that the run exits with code 1 having shown no tool, port or database prompt. -/
theorem C6_tool_choices (w : World) (tools : List String)
    (ht : w.config.availableTools = some tools) :
    (availableToolChoices w tools).1 = tools.filter (fun t => (w.which t).isSome) ∧
    (availableToolChoices w tools).2 =
      (tools.filter (fun t => !(w.which t).isSome)).map
        (fun t => Event.toolNotFound t (getInstallInstructions w t)) ∧
    (∀ s d ec, s.events ++ (availableToolChoices w tools).2 <+:
      (selectTool w s d ec).state.events) ∧
    (∀ t tip, Event.toolNotFound t tip ∈ (main w).state.events →
      t ∈ tools ∧ w.which t = none ∧ tip = getInstallInstructions w t) ∧
    (∀ p, Event.prompt p ∈ (main w).state.events → p.name = "tool" →
      p.choices = tools.filter (fun t => (w.which t).isSome)) ∧
    (tools.filter (fun t => (w.which t).isSome) = [] →
      (∀ s d ec, selectTool w s d ec =
        ⟨{ s with events := s.events ++ (availableToolChoices w tools).2 ++ [.noTools] },
          .exit (some 1)⟩) ∧
      (main w).outcome = .exit (some 1) ∧
      (∀ p, Event.prompt p ∈ (main w).state.events → p.name = "environment")) := by
  refine ⟨availableToolChoices_fst w tools, availableToolChoices_snd w tools,
    fun s d ec => selectTool_hints w s d ec tools ht, ?_, ?_, ?_⟩
  · intro t tip hmem
    obtain ⟨tools1, ht1, h1⟩ := hint_main w t tip hmem
    rw [ht1] at ht
    cases ht
    rw [availableToolChoices_snd] at h1
    obtain ⟨t1, h2, h3⟩ := List.mem_map.1 h1
    cases h3
    obtain ⟨h4, h5⟩ := List.mem_filter.1 h2
    refine ⟨h4, ?_, rfl⟩
    cases hw : w.which t with
    | none => rfl
    | some path => rw [hw] at h5; simp at h5
  · intro p hmem hname
    obtain ⟨d, pr, _, _, hcase⟩ := prompt_main w p hmem
    rcases hcase with ⟨h1, _⟩ | ⟨tools1, _, ht1, _, _, ⟨_, _, h3⟩ | h1 | h1⟩
    · rw [hname] at h1; exact absurd h1 (by decide)
    · rw [ht1] at ht
      cases ht
      rw [h3, availableToolChoices_fst]
    · rw [hname] at h1; exact absurd h1.1 (by decide)
    · rw [hname] at h1; exact absurd h1.1 (by decide)
  · intro hempty
    have hnil : (availableToolChoices w tools).1 = [] := by
      rw [availableToolChoices_fst, hempty]
    refine ⟨?_, ?_, ?_⟩
    · intro s d ec
      unfold selectTool
      simp [ht, hnil, State.emit]
    · rcases main_reach w with ⟨ho, _⟩ | ⟨_, _, _, _, _, _, _, _, _, _, _, _, _, hcfg, _⟩
      · exact ho
      · obtain ⟨_, tools1, _, ht1, hne⟩ := hcfg
        rw [ht1] at ht
        cases ht
        rw [hnil] at hne
        exact absurd rfl hne
    · intro p hmem
      obtain ⟨d, pr, _, _, hcase⟩ := prompt_main w p hmem
      rcases hcase with ⟨h1, _⟩ | ⟨tools1, _, ht1, _, hne, _⟩
      · exact h1
      · rw [ht1] at ht
        cases ht
        rw [hnil] at hne
        exact absurd rfl hne

/-- Witness for C6: in `launchWorld` the tools are `pgcli` (present) and `psql`
(absent). -/
theorem C6_tool_choices_witness :
    launchWorld.config.availableTools = some ["pgcli", "psql"] ∧
    (availableToolChoices launchWorld ["pgcli", "psql"]).1 = ["pgcli"] ∧
    (availableToolChoices launchWorld ["pgcli", "psql"]).2 =
      [Event.toolNotFound "psql" (getInstallInstructions launchWorld "psql")] ∧
    (∀ p, Event.prompt p ∈ (main launchWorld).state.events → p.name = "tool" →
      p.choices = ["pgcli"]) :=
  ⟨rfl, (C6_tool_choices launchWorld ["pgcli", "psql"] rfl).1,
    (C6_tool_choices launchWorld ["pgcli", "psql"] rfl).2.1,
    (C6_tool_choices launchWorld ["pgcli", "psql"] rfl).2.2.2.2.1⟩

/-- C7 as stated fails: the configuration of `noToolsKeyWorld` lacks
`availableTools`, and the run shows the environment prompt before it fails. -/
theorem C7_counterexample :
    noToolsKeyWorld.config.availableTools = none ∧
    (main noToolsKeyWorld).state.events =
      [.prompt { name := "environment", message := "Select environment",
                 choices := ["dev", "prod"], initial := 0 },
       .dotenv ".env.dev",
       .caught (.typeError "availableTools.filter")] ∧
    (main noToolsKeyWorld).outcome = .exit (some 1) := by
  decide

/-- C7, amended: a configuration document lacking one of the four top-level
keys makes the run exit with code 1 before the banner and the spawn, having
shown no tool, port-alias or database prompt.  No prompt at all is shown when
the missing key is `defaults` or `prompts`, when at most one environment name
is discovered, or when `prompts.environment` is `false`; otherwise (more than
one environment name, the environment prompt not disabled) the environment
prompt over the discovered names is the first action of the run and the
failure follows it. -/
theorem C7_missing_key (w : World)
    (h : w.config.defaults = none ∨ w.config.prompts = none ∨
      w.config.availableTools = none ∨ w.config.environments = none) :
    (main w).outcome = .exit (some 1) ∧
    (∀ p, Event.prompt p ∈ (main w).state.events →
      p.name = "environment" ∧ p.choices = envChoices w) ∧
    ((w.config.defaults = none ∨ w.config.prompts = none ∨ (envChoices w).length ≤ 1 ∨
        ∃ pr, w.config.prompts = some pr ∧ pr.environment = some false) →
      ∀ p, Event.prompt p ∉ (main w).state.events) ∧
    (∀ d pr, w.config.defaults = some d → w.config.prompts = some pr →
      pr.environment ≠ some false → 1 < (envChoices w).length →
      ∃ rest, (main w).state.events =
        .prompt { name := "environment", message := "Select environment",
                  choices := envChoices w,
                  initial := indexOf (envChoices w) d.environment } :: rest ∧
        rest ≠ []) ∧
    (∀ e ∈ (main w).state.events, e.isLaunch = false) := by
  have hprompt : ∀ p, Event.prompt p ∈ (main w).state.events →
      ∃ d pr, w.config.defaults = some d ∧ w.config.prompts = some pr ∧
        p.name = "environment" ∧ pr.environment ≠ some false ∧ 1 < (envChoices w).length ∧
        p.choices = envChoices w := by
    intro p hmem
    obtain ⟨d, pr, hd, hpr, hcase⟩ := prompt_main w p hmem
    rcases hcase with ⟨h1, h2, h3, h4⟩ | ⟨tools, environments, ht, he, _⟩
    · exact ⟨d, pr, hd, hpr, h1, h2, h3, h4⟩
    · rcases h with h | h | h | h
      · rw [hd] at h; cases h
      · rw [hpr] at h; cases h
      · rw [ht] at h; cases h
      · rw [he] at h; cases h
  have hstop : (main w).outcome = .exit (some 1) ∧
      ∀ e ∈ (main w).state.events, e.isLaunch = false := by
    rcases main_reach w with
      hA | ⟨_, _, _, _, _, _, _, _, _, _, _, _, _, hcfg, henvs, hdef⟩
    · exact hA
    · obtain ⟨pr, tools, hpr, ht, _⟩ := hcfg
      obtain ⟨environments, _, he, _⟩ := henvs
      obtain ⟨d, hd⟩ := hdef
      rcases h with h | h | h | h
      · rw [hd] at h; cases h
      · rw [hpr] at h; cases h
      · rw [ht] at h; cases h
      · rw [he] at h; cases h
  refine ⟨hstop.1, ?_, ?_, ?_, hstop.2⟩
  · intro p hmem
    obtain ⟨_, _, _, _, h1, _, _, h4⟩ := hprompt p hmem
    exact ⟨h1, h4⟩
  · intro hcond p hmem
    obtain ⟨d, pr, hd, hpr, _, hflag, hlen, _⟩ := hprompt p hmem
    rcases hcond with h1 | h1 | h1 | ⟨pr1, h1, h2⟩
    · rw [hd] at h1; cases h1
    · rw [hpr] at h1; cases h1
    · omega
    · rw [hpr] at h1
      cases h1
      exact hflag h2
  · intro d pr hd hpr hflag hlen
    have hne : ¬ (envChoices w).length = 0 := by omega
    unfold main
    simp only [hd, hpr, hne, hlen, hflag, gt_iff_lt, ne_eq, not_false_eq_true, if_true,
      if_false]
    split
    · exact ⟨_, rfl, by simp⟩
    · refine loadEnvironment_events_cons w _ d _ _ ?_
      rfl

/-- Witness for C7: `noToolsKeyWorld` lacks `availableTools`. -/
theorem C7_missing_key_witness :
    noToolsKeyWorld.config.availableTools = none ∧
    (main noToolsKeyWorld).outcome = .exit (some 1) ∧
    (∀ p, Event.prompt p ∈ (main noToolsKeyWorld).state.events →
      p.name = "environment" ∧ p.choices = envChoices noToolsKeyWorld) ∧
    (∃ rest, (main noToolsKeyWorld).state.events =
      .prompt { name := "environment", message := "Select environment",
                choices := envChoices noToolsKeyWorld,
                initial := indexOf (envChoices noToolsKeyWorld) "dev" } :: rest ∧
      rest ≠ []) ∧
    (∀ e ∈ (main noToolsKeyWorld).state.events, e.isLaunch = false) :=
  ⟨rfl, (C7_missing_key noToolsKeyWorld (Or.inr (Or.inr (Or.inl rfl)))).1,
    (C7_missing_key noToolsKeyWorld (Or.inr (Or.inr (Or.inl rfl)))).2.1,
    (C7_missing_key noToolsKeyWorld (Or.inr (Or.inr (Or.inl rfl)))).2.2.2.1
      ⟨"dev", "psql", "primary", "app"⟩ ⟨none, none, none, none⟩ rfl rfl (by decide)
      (by decide),
    (C7_missing_key noToolsKeyWorld (Or.inr (Or.inr (Or.inl rfl)))).2.2.2.2⟩

/-- C8: when no file of the directory listing starts with `.env.` without
ending in `.example`, the list of environment names is empty, the run exits
with code 1 and no prompt is shown, whatever the configuration is. -/
theorem C8_no_environments (w : World)
    (h : ∀ f ∈ w.readdir, ¬ (startsWith f ".env." = true ∧ endsWith f ".example" = false)) :
    envChoices w = [] ∧
    (main w).outcome = .exit (some 1) ∧
    (∀ p, Event.prompt p ∉ (main w).state.events) ∧
    (w.config.defaults ≠ none → (main w).state.events = [.noEnvFiles]) := by
  have hc : envChoices w = [] := by
    simp only [envChoices, envFiles, List.map_eq_nil_iff, List.filter_eq_nil_iff]
    intro f hf
    have := h f hf
    simpa using this
  refine ⟨hc, ?_, ?_, ?_⟩
  · unfold main
    split
    · rfl
    · simp [hc]
  · intro p hmem
    obtain ⟨_, _, _, _, hcase⟩ := prompt_main w p hmem
    rcases hcase with ⟨_, _, hlen, _⟩ | ⟨_, _, _, _, _, _⟩
    · rw [hc] at hlen
      simp at hlen
    · revert hmem
      unfold main
      split
      · simp [catchBlock, State.emit]
      · simp [hc, State.emit]
  · intro hd
    unfold main
    split
    · rename_i hnone
      exact absurd hnone hd
    · simp [hc, State.emit]

/-- Witness for C8: `emptyDirWorld` holds only `.env.example` and other files. -/
theorem C8_no_environments_witness :
    (∀ f ∈ emptyDirWorld.readdir,
      ¬ (startsWith f ".env." = true ∧ endsWith f ".example" = false)) ∧
    (envChoices emptyDirWorld = [] ∧
      (main emptyDirWorld).outcome = .exit (some 1) ∧
      (∀ p, Event.prompt p ∉ (main emptyDirWorld).state.events) ∧
      (emptyDirWorld.config.defaults ≠ none →
        (main emptyDirWorld).state.events = [.noEnvFiles])) :=
  ⟨by decide, C8_no_environments emptyDirWorld (by decide)⟩

/-- C3 as stated fails: in `singleEnvWorld` the only environment
name is `prod`, yet the secret file loaded is `.env.dev` and the selected
environment is `dev`, the configured default. -/
theorem C3_counterexample :
    envFiles singleEnvWorld = [".env.prod"] ∧ envChoices singleEnvWorld = ["prod"] ∧
    (main singleEnvWorld).state.selectedEnv = some "dev" ∧
    (main singleEnvWorld).state.events.head? = some (.dotenv ".env.dev") ∧
    Event.dotenv ".env.prod" ∉ (main singleEnvWorld).state.events := by
  decide

/-- C3, amended: when the directory listing yields exactly the one environment
name `e` (the one secret file is `.env.` followed by `e`), the environment
prompt is not shown.  The selected environment is `e` when
`defaults.environment` is `e`, and it is `defaults.environment` whatever `e` is
when `prompts.environment` is `false`.  In both cases the secret file of the
selected environment is loaded as the first action of the run, it is the only
secret file loaded, and `process.env` is the result of loading it; and the
configuration looked up is the entry of the selected environment in
`environments`: with `environments` absent the run fails at the lookup, a
missing entry is reported for that name and the run exits with code 1, and
otherwise the choices of the port-alias and database prompts and the port in
the argument vector of the child come from that entry. -/
theorem C3_single_environment (w : World) (e : String) (h : envFiles w = [".env." ++ e]) :
    envChoices w = [e] ∧
    (∀ p, Event.prompt p ∈ (main w).state.events → p.name ≠ "environment") ∧
    ∀ d sel, w.config.defaults = some d →
      ((d.environment = e ∧ sel = e) ∨
        ((∃ pr, w.config.prompts = some pr ∧ pr.environment = some false) ∧
          sel = d.environment)) →
      (main w).state.selectedEnv = some sel ∧
      (main w).state.events.head? = some (.dotenv (".env." ++ sel)) ∧
      (∀ f, Event.dotenv f ∈ (main w).state.events → f = ".env." ++ sel) ∧
      (main w).state.env = w.dotenv (".env." ++ sel) w.env ∧
      (w.config.environments = none →
        (main w).state.events =
          [.dotenv (".env." ++ sel), .caught (.typeError "environments[selectedEnv]")] ∧
        (main w).outcome = .exit (some 1)) ∧
      (∀ environments, w.config.environments = some environments →
        (getProp environments sel = .missing →
          (main w).state.events = [.dotenv (".env." ++ sel), .noConfig sel] ∧
          (main w).outcome = .exit (some 1)) ∧
        (∀ x, Event.noConfig x ∈ (main w).state.events →
          x = sel ∧ getProp environments sel = .missing) ∧
        (∀ p, Event.prompt p ∈ (main w).state.events →
          (p.name = "portAlias" → ∃ ec, getProp environments sel = .own ec ∧
            p.choices = ec.portAliases.map Prod.fst) ∧
          (p.name = "database" → ∃ ec, getProp environments sel = .own ec ∧
            p.choices = ec.databases)) ∧
        (∀ file args cenv, Event.spawn file args cenv ∈ (main w).state.events →
          ∃ ec al host user db, getProp environments sel = .own ec ∧
            (main w).state.selectedAlias = some al ∧
            args = cliArgs file host (portOf ec al) user db)) := by
  have hc : envChoices w = [e] := by
    simp only [envChoices, h, List.map_cons, List.map_nil, replace_envPrefix]
  have hlen : (envChoices w).length = 1 := by rw [hc]; rfl
  refine ⟨hc, ?_, ?_⟩
  · intro p hp hname
    obtain ⟨d, pr, _, _, hcase⟩ := prompt_main w p hp
    rcases hcase with ⟨_, _, hgt, _⟩ | ⟨_, _, _, _, _, h1 | h1 | h1⟩
    · omega
    · rw [hname] at h1; exact absurd h1.1 (by decide)
    · rw [hname] at h1; exact absurd h1.1 (by decide)
    · rw [hname] at h1; exact absurd h1.1 (by decide)
  · intro d sel hd hsel
    have hsel2 : sel = d.environment := by
      rcases hsel with ⟨h1, h2⟩ | ⟨_, h2⟩
      · rw [h2, h1]
      · exact h2
    subst hsel2
    have hm := main_default_environment w d hd (by omega) (Or.inl (by omega))
    have hfin : (main w).state.selectedEnv = some d.environment := by
      rw [hm]
      exact selectedEnv_loadEnvironment w _ d d.environment
    refine ⟨hfin, ?_, ?_, ?_, ?_, ?_⟩
    · rw [hm]
      exact loadEnvironment_head w _ d d.environment rfl
    · intro f hf
      rw [hm] at hf
      rcases early_loadEnvironment w _ d d.environment (Event.dotenv f) rfl hf with
        h1 | h1 | h1 | ⟨tools, _, h1⟩
      · simp at h1
      · cases h1
        rfl
      · cases h1.1
      · obtain ⟨t, ht⟩ := mem_hints w tools _ h1
        cases ht
    · rw [hm]
      exact env_loadEnvironment w _ d d.environment
    · intro hn
      rw [hm]
      unfold loadEnvironment
      simp [hn, catchBlock, State.emit]
    · intro environments henvs
      refine ⟨?_, ?_, ?_, ?_⟩
      · intro hmiss
        rw [hm]
        unfold loadEnvironment
        simp [henvs, hmiss, State.emit]
      · intro x hx
        rw [hm] at hx
        rcases early_loadEnvironment w _ d d.environment (Event.noConfig x) rfl hx with
          h1 | h1 | ⟨h1, environments1, h2, h3⟩ | ⟨tools, _, h1⟩
        · simp at h1
        · cases h1
        · cases h1
          rw [henvs] at h2
          cases h2
          exact ⟨rfl, h3⟩
        · obtain ⟨t, ht⟩ := mem_hints w tools _ h1
          cases ht
      · intro p hp
        rw [hm] at hp
        rcases choices_loadEnvironment w _ d d.environment p hp with
          h1 | h1 | ⟨environments1, ec1, h2, h3, h4⟩
        · simp at h1
        · constructor
          · intro hname
            rw [hname] at h1
            exact absurd h1 (by decide)
          · intro hname
            rw [hname] at h1
            exact absurd h1 (by decide)
        · rw [henvs] at h2
          cases h2
          rcases h4 with ⟨h5, h6⟩ | ⟨h5, h6⟩
          · constructor
            · intro _
              exact ⟨ec1, h3, h6⟩
            · intro hname
              rw [hname] at h5
              exact absurd h5 (by decide)
          · constructor
            · intro hname
              rw [hname] at h5
              exact absurd h5 (by decide)
            · intro _
              exact ⟨ec1, h3, h6⟩
      · intro file args cenv hs
        obtain ⟨s1, selectedEnv, al, port, db, host, user, password, hm2, _, _, h2, _, h4, _,
          _, _, _, hargs, _, environments1, ec1, h5, h6, h7⟩ := spawn_mem w file args cenv hs
        have hsel := sel_launch w s1 file al port db
        have h8 : (main w).state.selectedEnv = some selectedEnv := by
          rw [hm2]
          exact hsel.1.trans h2
        have h9 : (main w).state.selectedAlias = some al := by
          rw [hm2]
          exact hsel.2.2.1.trans h4
        rw [hfin] at h8
        cases h8
        rw [henvs] at h5
        cases h5
        refine ⟨ec1, al, host, user, db, h6, h9, ?_⟩
        rw [hargs, h7]

/-- Witness for C3: `launchWorld` has the one secret file `.env.dev` and its
default environment is `dev`. -/
theorem C3_single_environment_witness :
    envFiles launchWorld = [".env." ++ "dev"] ∧
    envChoices launchWorld = ["dev"] ∧
    (∀ p, Event.prompt p ∈ (main launchWorld).state.events → p.name ≠ "environment") ∧
    (main launchWorld).state.selectedEnv = some "dev" ∧
    (main launchWorld).state.events.head? = some (.dotenv (".env." ++ "dev")) ∧
    (∀ f, Event.dotenv f ∈ (main launchWorld).state.events → f = ".env." ++ "dev") ∧
    (main launchWorld).state.env = launchWorld.dotenv (".env." ++ "dev") launchWorld.env ∧
    (∀ file args cenv, Event.spawn file args cenv ∈ (main launchWorld).state.events →
      ∃ ec al host user db, getProp [("dev", devEnvironment)] "dev" = .own ec ∧
        (main launchWorld).state.selectedAlias = some al ∧
        args = cliArgs file host (portOf ec al) user db) :=
  ⟨by decide, (C3_single_environment launchWorld "dev" (by decide)).1,
    (C3_single_environment launchWorld "dev" (by decide)).2.1,
    ((C3_single_environment launchWorld "dev" (by decide)).2.2
      ⟨"dev", "psql", "primary", "app"⟩ "dev" rfl (Or.inl ⟨rfl, rfl⟩)).1,
    ((C3_single_environment launchWorld "dev" (by decide)).2.2
      ⟨"dev", "psql", "primary", "app"⟩ "dev" rfl (Or.inl ⟨rfl, rfl⟩)).2.1,
    ((C3_single_environment launchWorld "dev" (by decide)).2.2
      ⟨"dev", "psql", "primary", "app"⟩ "dev" rfl (Or.inl ⟨rfl, rfl⟩)).2.2.1,
    ((C3_single_environment launchWorld "dev" (by decide)).2.2
      ⟨"dev", "psql", "primary", "app"⟩ "dev" rfl (Or.inl ⟨rfl, rfl⟩)).2.2.2.1,
    (((C3_single_environment launchWorld "dev" (by decide)).2.2
      ⟨"dev", "psql", "primary", "app"⟩ "dev" rfl (Or.inl ⟨rfl, rfl⟩)).2.2.2.2.2
      [("dev", devEnvironment)] rfl).2.2.2⟩

end Dbspin
